import Mathlib

/-!
Verification of the flat-file record-store engine of the library system
(`project.py`).  Files are modelled as byte lists (`List Nat`), records are
packed and unpacked exactly as the `struct` format strings prescribe
(`<4s60s20s30s30s4sIBi` for books, `<4s50s10sIBi` for members,
`<4sB4s4s10s10s10sBi` for loans, `<ii` for the header), and every store
operation (header read/write, slot read/write, append-or-reuse allocation,
soft delete, borrow, return) is translated from the Python source.
Python `str` values are modelled by their UTF-8 byte sequences, so
`s.encode("utf-8")` is the identity and `bytes.decode(errors="ignore")`
is the identity on the byte sequences our packers produce.
-/

set_option maxRecDepth 100000

namespace LibSys

/-- A store file is a byte sequence. -/
abbrev File := List Nat

/-- Model of `f.seek(off); f.read(n)`: returns the available bytes,
possibly fewer than `n` when the file is shorter. -/
def readBytes (f : File) (off n : Nat) : List Nat :=
  (f.drop off).take n

/-- Model of `f.seek(off); f.write(d)`: overwrite in place, zero-filling
any gap between the end of the file and `off` (POSIX sparse-write
behaviour of the underlying file object). -/
def writeBytes (f : File) (off : Nat) (d : List Nat) : File :=
  f.take off ++ List.replicate (off - f.length) 0 ++ d ++ f.drop (off + d.length)

/-- Little-endian base-256 digits, fixed width. -/
def le_bytes (n : Nat) : Nat → List Nat
  | 0 => []
  | w + 1 => n % 256 :: le_bytes (n / 256) w

/-- Value of a little-endian byte string. -/
def from_le (l : List Nat) : Nat :=
  l.foldr (fun b acc => b + 256 * acc) 0

/-- `struct.pack("<I", n)` for in-range `n` (wraps modulo 2^32 in the model;
the Python call raises for out-of-range values, which never occur in the
verified paths). -/
def pack_u32 (n : Nat) : List Nat := le_bytes n 4

/-- `struct.pack("<B", n)` for in-range `n`. -/
def pack_u8 (n : Nat) : List Nat := [n % 256]

/-- `struct.pack("<i", v)` for in-range `v`. -/
def pack_i32 (v : Int) : List Nat := le_bytes (v % 4294967296).toNat 4

/-- `struct.unpack("<i", _)`: two's-complement value of 4 bytes. -/
def unpack_i32 (l : List Nat) : Int :=
  if from_le l < 2147483648 then (from_le l : Int) else (from_le l : Int) - 4294967296

/-- `fit_str`: truncate the UTF-8 bytes to `w` bytes, right-pad with
spaces (byte 32). -/
def fit_str (s : List Nat) (w : Nat) : List Nat :=
  let b := s.take w
  b ++ List.replicate (w - b.length) 32

/-- Python `str.rstrip(c)` on byte strings: remove all trailing `c`. -/
def rstrip (c : Nat) (l : List Nat) : List Nat :=
  (l.reverse.dropWhile (fun x => x == c)).reverse

/-- `bytes_to_str`: decode then strip trailing spaces, then trailing NULs
(`b.decode(errors="ignore").rstrip(" ").rstrip("\x00")`). -/
def bytes_to_str (b : List Nat) : List Nat :=
  rstrip 0 (rstrip 32 b)

/-- A byte string round-trips through the codec if it fits the width and
does not end in a padding byte (space or NUL). -/
def goodStr (s : List Nat) (w : Nat) : Prop :=
  s.length ≤ w ∧ s.getLast? ≠ some 32 ∧ s.getLast? ≠ some 0

instance (s : List Nat) (w : Nat) : Decidable (goodStr s w) := by
  unfold goodStr; infer_instance

instance {ε α : Type} [DecidableEq ε] [DecidableEq α] : DecidableEq (Except ε α) :=
  fun x y =>
  match x, y with
  | Except.error a, Except.error b =>
    if h : a = b then isTrue (by subst h; rfl)
    else isFalse (fun hh => h (by injection hh))
  | Except.error _, Except.ok _ => isFalse (fun hh => Except.noConfusion hh)
  | Except.ok _, Except.error _ => isFalse (fun hh => Except.noConfusion hh)
  | Except.ok a, Except.ok b =>
    if h : a = b then isTrue (by subst h; rfl)
    else isFalse (fun hh => h (by injection hh))

/-- A decoded book record (`unpack_book` dictionary). -/
structure Book where
  book_id : List Nat
  title : List Nat
  category : List Nat
  author : List Nat
  publisher : List Nat
  year : List Nat
  copies : Nat
  status : Nat
  next_free : Int
  deriving DecidableEq

/-- A decoded member record (`unpack_member` dictionary). -/
structure Member where
  member_id : List Nat
  name : List Nat
  birth : List Nat
  max_loan : Nat
  status : Nat
  next_free : Int
  deriving DecidableEq

/-- A decoded loan record (`unpack_loan` dictionary). -/
structure Loan where
  loan_id : List Nat
  op_type : Nat
  member_id : List Nat
  book_id : List Nat
  loan_date : List Nat
  due_date : List Nat
  return_date : List Nat
  status : Nat
  next_free : Int
  deriving DecidableEq

/-- `BOOK_STRUCT.size` (`<4s60s20s30s30s4sIBi`). -/
abbrev BOOK_SIZE : Nat := 157

/-- `MEM_STRUCT.size` (`<4s50s10sIBi`). -/
abbrev MEM_SIZE : Nat := 73

/-- `LOAN_STRUCT.size` (`<4sB4s4s10s10s10sBi`). -/
abbrev LOAN_SIZE : Nat := 48

/-- `pack_book`: fixed-width encoding of a book record. -/
def pack_book (book_id title category author publisher year : List Nat)
    (copies status : Nat) (next_free : Int) : List Nat :=
  fit_str book_id 4 ++ fit_str title 60 ++ fit_str category 20 ++
    fit_str author 30 ++ fit_str publisher 30 ++ fit_str year 4 ++
    pack_u32 copies ++ pack_u8 status ++ pack_i32 next_free

/-- `unpack_book`: sequential fixed-width decoding of a book slot. -/
def unpack_book (d : List Nat) : Book :=
  let f1 := d.take 4;   let r1 := d.drop 4
  let f2 := r1.take 60; let r2 := r1.drop 60
  let f3 := r2.take 20; let r3 := r2.drop 20
  let f4 := r3.take 30; let r4 := r3.drop 30
  let f5 := r4.take 30; let r5 := r4.drop 30
  let f6 := r5.take 4;  let r6 := r5.drop 4
  let f7 := r6.take 4;  let r7 := r6.drop 4
  let f8 := r7.take 1;  let r8 := r7.drop 1
  let f9 := r8.take 4
  { book_id := bytes_to_str f1, title := bytes_to_str f2,
    category := bytes_to_str f3, author := bytes_to_str f4,
    publisher := bytes_to_str f5, year := bytes_to_str f6,
    copies := from_le f7, status := from_le f8, next_free := unpack_i32 f9 }

/-- `pack_member`: fixed-width encoding of a member record. -/
def pack_member (member_id name birth : List Nat)
    (max_loan status : Nat) (next_free : Int) : List Nat :=
  fit_str member_id 4 ++ fit_str name 50 ++ fit_str birth 10 ++
    pack_u32 max_loan ++ pack_u8 status ++ pack_i32 next_free

/-- `unpack_member`: sequential fixed-width decoding of a member slot. -/
def unpack_member (d : List Nat) : Member :=
  let f1 := d.take 4;   let r1 := d.drop 4
  let f2 := r1.take 50; let r2 := r1.drop 50
  let f3 := r2.take 10; let r3 := r2.drop 10
  let f4 := r3.take 4;  let r4 := r3.drop 4
  let f5 := r4.take 1;  let r5 := r4.drop 1
  let f6 := r5.take 4
  { member_id := bytes_to_str f1, name := bytes_to_str f2,
    birth := bytes_to_str f3, max_loan := from_le f4,
    status := from_le f5, next_free := unpack_i32 f6 }

/-- `pack_loan`: fixed-width encoding of a loan record. -/
def pack_loan (loan_id : List Nat) (op_type : Nat)
    (member_id book_id loan_date due_date return_date : List Nat)
    (status : Nat) (next_free : Int) : List Nat :=
  fit_str loan_id 4 ++ pack_u8 op_type ++ fit_str member_id 4 ++
    fit_str book_id 4 ++ fit_str loan_date 10 ++ fit_str due_date 10 ++
    fit_str return_date 10 ++ pack_u8 status ++ pack_i32 next_free

/-- `unpack_loan`: sequential fixed-width decoding of a loan slot. -/
def unpack_loan (d : List Nat) : Loan :=
  let f1 := d.take 4;   let r1 := d.drop 4
  let f2 := r1.take 1;  let r2 := r1.drop 1
  let f3 := r2.take 4;  let r3 := r2.drop 4
  let f4 := r3.take 4;  let r4 := r3.drop 4
  let f5 := r4.take 10; let r5 := r4.drop 10
  let f6 := r5.take 10; let r6 := r5.drop 10
  let f7 := r6.take 10; let r7 := r6.drop 10
  let f8 := r7.take 1;  let r8 := r7.drop 1
  let f9 := r8.take 4
  { loan_id := bytes_to_str f1, op_type := from_le f2,
    member_id := bytes_to_str f3, book_id := bytes_to_str f4,
    loan_date := bytes_to_str f5, due_date := bytes_to_str f6,
    return_date := bytes_to_str f7, status := from_le f8,
    next_free := unpack_i32 f9 }

/-- `HEADER_STRUCT.size` (`<ii`). -/
abbrev HEADER_SIZE : Nat := 8

/-- `read_header`: read 8 bytes at the start; a short file yields
`(0, -1)`. -/
def read_header (f : File) : Int × Int :=
  if (readBytes f 0 8).length < 8 then (0, -1)
  else (unpack_i32 ((readBytes f 0 8).take 4), unpack_i32 ((readBytes f 0 8).drop 4))

/-- `write_header`: overwrite the 8 header bytes. -/
def write_header (f : File) (num free_head : Int) : File :=
  writeBytes f 0 (pack_i32 num ++ pack_i32 free_head)

/-- `record_offset`: `HEADER_STRUCT.size + index * record_struct.size`. -/
def record_offset (index size : Nat) : Nat := 8 + index * size

/-- `read_record`: read one slot; fewer bytes than the record width raise
`IndexError`, modelled as `none`. -/
def read_record_bytes (f : File) (index size : Nat) : Option (List Nat) :=
  if (readBytes f (record_offset index size) size).length < size then none
  else some (readBytes f (record_offset index size) size)

/-- `write_record_at`: overwrite one slot in place. -/
def write_record_at (f : File) (index : Nat) (packed : List Nat) (size : Nat) : File :=
  writeBytes f (record_offset index size) packed

/-- `append_or_reuse`: pop the free-list head if there is one, else append
at index `num` and bump the count.  `none` models the `IndexError` raised
when the free-head slot cannot be read (never happens on well-formed
stores). -/
def append_or_reuse (f : File) (packed : List Nat) (size : Nat) : Option (File × Nat) :=
  let num := (read_header f).1
  let free_head := (read_header f).2
  if free_head ≠ -1 then
    match read_record_bytes f free_head.toNat size with
    | none => none
    | some r =>
      let next_free := unpack_i32 ((r.drop (size - 4)).take 4)
      some (write_header (write_record_at f free_head.toNat packed size) num next_free,
        free_head.toNat)
  else
    let idx := num.toNat
    some (write_header (write_record_at f idx packed size) (num + 1) free_head, idx)

/-- Decoded identifier field of a raw slot: every entity's id is its first
4 bytes (`rec[id_field_name]` for `Book_ID`/`Member_ID`/`Loan_ID`). -/
def id_of (d : List Nat) : List Nat := bytes_to_str (d.take 4)

/-- The scanning loop of `find_record_by_id`: index `i`, `fuel` slots left.
A failed slot read propagates the `IndexError` (`Except.error ()`). -/
def find_from (f : File) (size : Nat) (target : List Nat) :
    Nat → Nat → Except Unit (Option (Nat × List Nat))
  | _, 0 => Except.ok none
  | i, n + 1 =>
    match read_record_bytes f i size with
    | none => Except.error ()
    | some data =>
      if id_of data = target then Except.ok (some (i, data))
      else find_from f size target (i + 1) n

/-- `find_record_by_id`: linear scan over indices `0..num-1`, first match
wins. -/
def find_record_by_id (f : File) (size : Nat) (target : List Nat) :
    Except Unit (Option (Nat × List Nat)) :=
  find_from f size target 0 (read_header f).1.toNat

/-- `list_all_records`: scan all indices, skip unreadable slots. -/
def list_all_records (f : File) (size : Nat) : List (Nat × List Nat) :=
  (List.range (read_header f).1.toNat).filterMap
    (fun i => (read_record_bytes f i size).map (fun d => (i, d)))

/-- Result of a soft delete. -/
inductive DelResult where
  | notFound
  | alreadyDeleted
  | deleted
  deriving DecidableEq

/-- The mutation performed by `delete_book` once an active record has been
found at slot `idx`: rewrite the slot as a free node whose `next_free` is
the current free head, then point the free head at `idx`. -/
def free_book_slot (f : File) (idx : Nat) (r : Book) : File :=
  write_header
    (write_record_at f idx
      (pack_book r.book_id r.title r.category r.author r.publisher r.year
        r.copies 0 (read_header f).2) BOOK_SIZE)
    (read_header f).1 idx

/-- `delete_book`: find by identifier, report if absent or already
deleted, otherwise free the slot. -/
def delete_book (f : File) (bid : List Nat) : Except Unit (File × DelResult) :=
  match find_record_by_id f BOOK_SIZE bid with
  | Except.error _ => Except.error ()
  | Except.ok none => Except.ok (f, DelResult.notFound)
  | Except.ok (some (idx, data)) =>
    let r := unpack_book data
    if r.status = 0 then Except.ok (f, DelResult.alreadyDeleted)
    else Except.ok (free_book_slot f idx r, DelResult.deleted)

/-- The mutation performed by `delete_member` on a found active record. -/
def free_member_slot (f : File) (idx : Nat) (r : Member) : File :=
  write_header
    (write_record_at f idx
      (pack_member r.member_id r.name r.birth r.max_loan 0 (read_header f).2) MEM_SIZE)
    (read_header f).1 idx

/-- `delete_member`: find by identifier, report if absent or already
deleted, otherwise free the slot. -/
def delete_member (f : File) (mid : List Nat) : Except Unit (File × DelResult) :=
  match find_record_by_id f MEM_SIZE mid with
  | Except.error _ => Except.error ()
  | Except.ok none => Except.ok (f, DelResult.notFound)
  | Except.ok (some (idx, data)) =>
    let r := unpack_member data
    if r.status = 0 then Except.ok (f, DelResult.alreadyDeleted)
    else Except.ok (free_member_slot f idx r, DelResult.deleted)

/-- `update_book`: find by identifier; only active records are rewritten,
keeping identifier, status and `next_free`.  The `Bool` reports whether a
rewrite happened. -/
def update_book_core (f : File) (bid title category author publisher year : List Nat)
    (copies : Nat) : Except Unit (File × Bool) :=
  match find_record_by_id f BOOK_SIZE bid with
  | Except.error _ => Except.error ()
  | Except.ok none => Except.ok (f, false)
  | Except.ok (some (idx, data)) =>
    let r := unpack_book data
    if r.status ≠ 1 then Except.ok (f, false)
    else
      Except.ok
        (write_record_at f idx
          (pack_book r.book_id title category author publisher year copies 1 r.next_free)
          BOOK_SIZE, true)

/-- The store mutation of `add_book`: read the header, pack the new book
(status 1, `next_free` -1), allocate via `append_or_reuse`, and repeat the
header write when no slot was recycled (the redundant
`write_header(num+1, -1)` of the source). -/
def add_book_core (f : File) (b : Book) : Option (File × Nat) :=
  let num := (read_header f).1
  let free_head := (read_header f).2
  match append_or_reuse f
      (pack_book b.book_id b.title b.category b.author b.publisher b.year
        b.copies 1 (-1)) BOOK_SIZE with
  | none => none
  | some (f1, idx) =>
    if free_head = -1 then some (write_header f1 (num + 1) (-1), idx)
    else some (f1, idx)

/-- Fuel-based most-significant-first decimal digits. -/
def decimalAux : Nat → Nat → List Nat
  | 0, _ => []
  | fuel + 1, n => if n = 0 then [] else decimalAux fuel (n / 10) ++ [n % 10 + 48]

/-- Decimal digit rendering of a natural number (empty for 0), used to
model `"%d"` formatting. -/
def decimal (n : Nat) : List Nat := decimalAux n n

/-- `fmt_id`: the `f"{pre}{n:03d}"` identifier rendering. -/
def fmt_id (pre : List Nat) (n : Nat) : List Nat :=
  pre ++ (List.replicate (3 - (decimal n).length) 48 ++ decimal n)

/-- Dates are modelled by abstract day numbers; `strftime("%Y-%m-%d")` of
day `d` is modelled as the injective rendering `decimal d`, and
`timedelta(days=7)` as `+ 7`. -/
def date_str (day : Nat) : List Nat := decimal day

/-- `next_loan_id`: derive the next loan identifier from the loan store
header. -/
def next_loan_id (loans : File) : List Nat :=
  let num := (read_header loans).1
  let free_head := (read_header loans).2
  if free_head ≠ -1 then fmt_id [76] (free_head.toNat + 1)
  else fmt_id [76] (num.toNat + 1)

/-- The `current_borrowed` scan of `borrow_book`: number of outstanding
loans of `member_id` in the loan store. -/
def current_borrowed_count (loans : File) (member_id : List Nat) : Nat :=
  (list_all_records loans LOAN_SIZE).countP
    (fun p => (unpack_loan p.2).member_id == member_id &&
      (unpack_loan p.2).status == 1)

/-- One iteration of the borrow loop (`borrow_book` body for one book id):
enforce the max-loan limit, find the book, check status and copies,
decrement the copies in place, then append the new outstanding loan.
State is `(books, loans, current_borrowed)`. -/
def borrow_item (books loans : File) (member_id : List Nat)
    (max_loan current_borrowed : Nat) (today : Nat) (book_id : List Nat) :
    Except Unit (File × File × Nat) :=
  if max_loan ≤ current_borrowed then Except.ok (books, loans, current_borrowed)
  else
    match find_record_by_id books BOOK_SIZE book_id with
    | Except.error _ => Except.error ()
    | Except.ok none => Except.ok (books, loans, current_borrowed)
    | Except.ok (some (b_idx, data)) =>
      let book := unpack_book data
      if book.status ≠ 1 then Except.ok (books, loans, current_borrowed)
      else if book.copies = 0 then Except.ok (books, loans, current_borrowed)
      else
        let books1 := write_record_at books b_idx
          (pack_book book.book_id book.title book.category book.author
            book.publisher book.year (book.copies - 1) 1 book.next_free) BOOK_SIZE
        let lid := next_loan_id loans
        match append_or_reuse loans
            (pack_loan lid 1 member_id book_id (date_str today)
              (date_str (today + 7)) [45] 1 (-1)) LOAN_SIZE with
        | none => Except.error ()
        | some (loans1, _) => Except.ok (books1, loans1, current_borrowed + 1)

/-- The borrow loop over a batch of book identifiers. -/
def borrow_items (books loans : File) (member_id : List Nat)
    (max_loan current_borrowed : Nat) (today : Nat) :
    List (List Nat) → Except Unit (File × File × Nat)
  | [] => Except.ok (books, loans, current_borrowed)
  | book_id :: rest =>
    match borrow_item books loans member_id max_loan current_borrowed today book_id with
    | Except.error _ => Except.error ()
    | Except.ok (books1, loans1, cb1) =>
      borrow_items books1 loans1 member_id max_loan cb1 today rest

/-- Result of processing one loan id in `return_book`. -/
inductive RetResult where
  | notFound
  | alreadyReturned
  | returned
  deriving DecidableEq

/-- One iteration of the return loop (`return_book` body for one loan id):
look up the loan; skip if absent or already closed; otherwise rewrite it
in place as closed (operation 2, status 0, return date = today,
`next_free` -1), then find the referenced book and increment its copies,
rewriting it with status 1. -/
def return_item (books loans : File) (today : Nat) (loan_id : List Nat) :
    Except Unit (File × File × RetResult) :=
  match find_record_by_id loans LOAN_SIZE loan_id with
  | Except.error _ => Except.error ()
  | Except.ok none => Except.ok (books, loans, RetResult.notFound)
  | Except.ok (some (l_idx, data)) =>
    let loan := unpack_loan data
    if loan.status = 0 then Except.ok (books, loans, RetResult.alreadyReturned)
    else
      let loans1 := write_record_at loans l_idx
        (pack_loan loan.loan_id 2 loan.member_id loan.book_id loan.loan_date
          loan.due_date (date_str today) 0 (-1)) LOAN_SIZE
      match find_record_by_id books BOOK_SIZE loan.book_id with
      | Except.error _ => Except.error ()
      | Except.ok none => Except.ok (books, loans1, RetResult.returned)
      | Except.ok (some (b_idx, bdata)) =>
        let book := unpack_book bdata
        let books1 := write_record_at books b_idx
          (pack_book book.book_id book.title book.category book.author
            book.publisher book.year (book.copies + 1) 1 book.next_free) BOOK_SIZE
        Except.ok (books1, loans1, RetResult.returned)

/-- An operation sequence on the book store, for the allocation-count
invariant: create (`add_book`), update (`update_book`) and soft delete
(`delete_book`). -/
inductive BookOp where
  | create (b : Book)
  | update (bid title category author publisher year : List Nat) (copies : Nat)
  | delete (bid : List Nat)

/-- Run one `BookOp`; a create also reports the slot index it allocated. -/
def exec_op (f : File) : BookOp → Except Unit (File × Option Nat)
  | BookOp.create b =>
    match add_book_core f b with
    | none => Except.error ()
    | some (f1, idx) => Except.ok (f1, some idx)
  | BookOp.update bid t c a p y cp =>
    match update_book_core f bid t c a p y cp with
    | Except.error _ => Except.error ()
    | Except.ok (f1, _) => Except.ok (f1, none)
  | BookOp.delete bid =>
    match delete_book f bid with
    | Except.error _ => Except.error ()
    | Except.ok (f1, _) => Except.ok (f1, none)

/-- Run a sequence of operations, accumulating the set of slot indices
ever returned by the allocator. -/
def exec_trace : File → Finset Nat → List BookOp → Except Unit (File × Finset Nat)
  | f, S, [] => Except.ok (f, S)
  | f, S, op :: ops =>
    match exec_op f op with
    | Except.error _ => Except.error ()
    | Except.ok (f1, some i) => exec_trace f1 (insert i S) ops
    | Except.ok (f1, none) => exec_trace f1 S ops

/-- The file written by `ensure_file`: header `(0, -1)`, no slots. -/
def init_file : File := pack_i32 0 ++ pack_i32 (-1)

/-- Every slot below `count` stores a valid `next_free` link (`-1` or an
allocated index). -/
def slot_next_free_ok (f : File) (i count : Nat) : Prop :=
  ∀ d, read_record_bytes f i BOOK_SIZE = some d →
    ((unpack_book d).next_free = -1 ∨
      (0 ≤ (unpack_book d).next_free ∧ (unpack_book d).next_free < (count : Int)))

/-- Well-formedness of a book store file: header consistent with the
exact file length, free head valid, all slot links valid. -/
def books_wf (f : File) (count : Nat) (fh : Int) : Prop :=
  read_header f = ((count : Int), fh) ∧
  f.length = 8 + count * BOOK_SIZE ∧
  (fh = -1 ∨ (0 ≤ fh ∧ fh < (count : Int))) ∧
  (∀ i, i < count → slot_next_free_ok f i count)

/-- All slots below `count` are readable. -/
def slots_readable (f : File) (count size : Nat) : Prop :=
  ∀ i, i < count → (read_record_bytes f i size).isSome

instance (f : File) (count size : Nat) : Decidable (slots_readable f count size) := by
  unfold slots_readable; infer_instance

/-- Concrete already-deleted book slot for the delete-detection check. -/
def cw7_book : List Nat := pack_book [66, 48, 48, 49] [] [] [] [] [] 0 0 (-1)

/-- Concrete book store holding one freed slot. -/
def cw7_books : File := pack_i32 1 ++ pack_i32 0 ++ cw7_book

/-- Concrete already-deleted member slot for the delete-detection check. -/
def cw7_member : List Nat := pack_member [77, 48, 48, 49] [] [] 5 0 (-1)

/-- Concrete member store holding one freed slot. -/
def cw7_members : File := pack_i32 1 ++ pack_i32 0 ++ cw7_member

/-- A truncated store: the header records one slot but the slot bytes are
missing. -/
def cw8_trunc : File := pack_i32 1 ++ pack_i32 (-1)

/-- Concrete active book slot for the scan check. -/
def cw8_book : List Nat := pack_book [66, 48, 48, 50] [] [] [] [] [] 2 1 (-1)

/-- Concrete readable one-slot book store for the scan check. -/
def cw8_books : File := pack_i32 1 ++ pack_i32 (-1) ++ cw8_book

/-- Concrete soft-deleted book referenced by an outstanding loan. -/
def cw9_book : List Nat := pack_book [66, 48, 48, 49] [] [] [] [] [] 2 0 (-1)

/-- Concrete book store whose only slot is freed (free head points at it). -/
def cw9_books : File := pack_i32 1 ++ pack_i32 0 ++ cw9_book

/-- Concrete outstanding loan referencing `cw9_book`. -/
def cw9_loan : List Nat :=
  pack_loan [76, 48, 48, 49] 1 [77, 48, 48, 49] [66, 48, 48, 49] [49] [56] [45] 1 (-1)

/-- Concrete loan store holding one outstanding loan. -/
def cw9_loans : File := pack_i32 1 ++ pack_i32 (-1) ++ cw9_loan

/-- Concrete active book with 2 copies. -/
def cw4_book : List Nat := pack_book [66, 48, 48, 49] [] [] [] [] [] 2 1 (-1)

/-- Concrete book store for the return check. -/
def cw4_books : File := pack_i32 1 ++ pack_i32 (-1) ++ cw4_book

/-- Concrete outstanding loan for the return check. -/
def cw4_loan : List Nat :=
  pack_loan [76, 48, 48, 49] 1 [77, 48, 48, 49] [66, 48, 48, 49] [49] [56] [45] 1 (-1)

/-- Concrete loan store for the return check. -/
def cw4_loans : File := pack_i32 1 ++ pack_i32 (-1) ++ cw4_loan

/-- Concrete already-closed loan for the skip check. -/
def cw4_loan_closed : List Nat :=
  pack_loan [76, 48, 48, 50] 2 [77, 48, 48, 49] [66, 48, 48, 49] [49] [56] [53] 0 (-1)

/-- Concrete loan store holding one closed loan. -/
def cw4_loans_closed : File := pack_i32 1 ++ pack_i32 (-1) ++ cw4_loan_closed

/-- Concrete active book in slot 0. -/
def cw1_b0 : List Nat := pack_book [66, 48, 48, 49] [] [] [] [] [] 1 1 (-1)

/-- Concrete active book in slot 1. -/
def cw1_b1 : List Nat := pack_book [66, 48, 48, 50] [] [] [] [] [] 1 1 (-1)

/-- Concrete two-slot book store with an empty free list. -/
def cw1_books : File := pack_i32 2 ++ pack_i32 (-1) ++ cw1_b0 ++ cw1_b1

/-- A concrete decoded book record. -/
def cw1_rec : Book :=
  { book_id := [66, 48, 48, 49], title := [], category := [], author := [],
    publisher := [], year := [], copies := 1, status := 1, next_free := -1 }

/-- Concrete active book with 2 copies for the lend check. -/
def cw3_book : List Nat := pack_book [66, 48, 48, 49] [] [] [] [] [] 2 1 (-1)

/-- Concrete one-slot book store for the lend check. -/
def cw3_books : File := pack_i32 1 ++ pack_i32 (-1) ++ cw3_book

/-- Concrete empty loan store for the lend check. -/
def cw3_loans : File := pack_i32 0 ++ pack_i32 (-1)

/-- Concrete active book with 5 copies for the max-loan check. -/
def cw5_book : List Nat := pack_book [66, 48, 48, 49] [] [] [] [] [] 5 1 (-1)

/-- Concrete one-slot book store for the max-loan check. -/
def cw5_books : File := pack_i32 1 ++ pack_i32 (-1) ++ cw5_book

/-- Concrete empty loan store for the max-loan check. -/
def cw5_loans : File := pack_i32 0 ++ pack_i32 (-1)

/-- Expected book store after one successful borrow of `cw5_book`. -/
def cw5_books1 : File :=
  write_record_at cw5_books 0
    (pack_book [66, 48, 48, 49] [] [] [] [] [] 4 1 (-1)) BOOK_SIZE

/-- Expected loan store after one successful borrow. -/
def cw5_loans1 : File :=
  write_header
    (write_record_at cw5_loans 0
      (pack_loan [76, 48, 48, 49] 1 [77, 48, 48, 49] [66, 48, 48, 49]
        [53] [49, 50] [45] 1 (-1)) LOAN_SIZE)
    1 (-1)

/-- A concrete book for the allocation-count trace check. -/
def cw6_b : Book :=
  { book_id := [66, 48, 48, 49], title := [], category := [], author := [],
    publisher := [], year := [], copies := 3, status := 1, next_free := -1 }

/-- Expected store after creating `cw6_b` in an empty store. -/
def cw6_file : File :=
  write_header
    (write_header
      (write_record_at init_file 0
        (pack_book [66, 48, 48, 49] [] [] [] [] [] 3 1 (-1)) BOOK_SIZE)
      1 (-1))
    1 (-1)

end LibSys

namespace LibSys

/-! ### List and byte-level lemmas -/

theorem take_append_len {α : Type} (l₁ l₂ : List α) (n : Nat) (h : l₁.length = n) :
    (l₁ ++ l₂).take n = l₁ := by
  subst h
  rw [List.take_append_eq_append_take]
  simp

theorem drop_append_len {α : Type} (l₁ l₂ : List α) (n : Nat) (h : l₁.length = n) :
    (l₁ ++ l₂).drop n = l₂ := by
  subst h
  rw [List.drop_append_eq_append_drop]
  simp

theorem take_append_le {α : Type} (l₁ l₂ : List α) (n : Nat) (h : n ≤ l₁.length) :
    (l₁ ++ l₂).take n = l₁.take n := by
  rw [List.take_append_eq_append_take]
  have h0 : n - l₁.length = 0 := by omega
  rw [h0]
  simp

theorem length_writeBytes (f : File) (off : Nat) (d : List Nat) :
    (writeBytes f off d).length = max f.length (off + d.length) := by
  simp [writeBytes, List.length_take]
  omega

theorem length_readBytes (f : File) (off n : Nat) :
    (readBytes f off n).length = min n (f.length - off) := by
  simp [readBytes, List.length_take]

/-- Reading back exactly the bytes just written. -/
theorem readBytes_writeBytes_self (f : File) (off : Nat) (d : List Nat) :
    readBytes (writeBytes f off d) off d.length = d := by
  unfold readBytes writeBytes
  rw [List.append_assoc]
  rw [drop_append_len (f.take off ++ List.replicate (off - f.length) 0) _ off
    (by simp [List.length_take]; omega)]
  exact take_append_len d _ d.length rfl

/-- A read strictly below the written region is unchanged, provided the
read stays inside the original file. -/
theorem readBytes_writeBytes_of_le (f : File) (off : Nat) (d : List Nat)
    (off2 n : Nat) (h : off2 + n ≤ off) (h2 : off2 + n ≤ f.length) :
    readBytes (writeBytes f off d) off2 n = readBytes f off2 n := by
  unfold readBytes writeBytes
  rw [List.append_assoc]
  rw [List.drop_append_eq_append_drop]
  have h0 : off2 - (f.take off ++ List.replicate (off - f.length) 0 : List Nat).length = 0 := by
    simp [List.length_take]; omega
  rw [h0, List.drop_zero]
  rw [take_append_le _ _ n (by simp [List.length_take]; omega)]
  rw [List.drop_append_eq_append_drop]
  have h1 : off2 - (f.take off).length = 0 := by simp [List.length_take]; omega
  rw [h1, List.drop_zero]
  rw [take_append_le _ _ n (by simp [List.length_take]; omega)]
  rw [List.drop_take, List.take_take]
  congr 1
  omega

/-- A read strictly above the written region is unchanged (no zero-fill
gap: the write starts inside the file). -/
theorem readBytes_writeBytes_of_ge (f : File) (off : Nat) (d : List Nat)
    (off2 n : Nat) (h : off + d.length ≤ off2) (hf : off ≤ f.length) :
    readBytes (writeBytes f off d) off2 n = readBytes f off2 n := by
  have hpad : (off - f.length) = 0 := by omega
  have hlen : (f.take off).length = off := by simp [List.length_take]; omega
  unfold readBytes writeBytes
  rw [hpad]
  simp only [List.replicate_zero, List.append_nil, List.nil_append]
  rw [List.drop_append_eq_append_drop, List.drop_append_eq_append_drop]
  have h1 : (f.take off).drop off2 = [] := by
    apply List.drop_eq_nil_of_le; simp [List.length_take]; omega
  have h2 : d.drop (off2 - (f.take off).length) = [] := by
    apply List.drop_eq_nil_of_le; omega
  have hlen2 : (f.take off ++ d : List Nat).length = off + d.length := by
    simp [List.length_take]; omega
  rw [h1, h2]
  simp only [List.nil_append, List.append_nil]
  rw [List.drop_drop, hlen2]
  congr 2
  omega

theorem length_le_bytes (n w : Nat) : (le_bytes n w).length = w := by
  induction w generalizing n with
  | zero => rfl
  | succ w ih => simp [le_bytes, ih]

theorem from_le_le_bytes (n w : Nat) : from_le (le_bytes n w) = n % 256 ^ w := by
  induction w generalizing n with
  | zero => simp [le_bytes, from_le, Nat.mod_one]
  | succ w ih =>
    simp only [le_bytes, from_le, List.foldr_cons] at *
    rw [ih]
    rw [Nat.pow_succ']
    rw [Nat.mod_mul]

theorem from_le_pack_u32 (n : Nat) (h : n < 4294967296) :
    from_le (pack_u32 n) = n := by
  unfold pack_u32
  rw [from_le_le_bytes]
  norm_num
  omega

theorem from_le_pack_u8 (n : Nat) (h : n < 256) :
    from_le (pack_u8 n) = n := by
  simp [pack_u8, from_le]
  omega

theorem unpack_pack_i32 (v : Int) (h1 : -2147483648 ≤ v) (h2 : v < 2147483648) :
    unpack_i32 (pack_i32 v) = v := by
  unfold unpack_i32 pack_i32
  rw [from_le_le_bytes]
  have hnn : (0:Int) ≤ v % 4294967296 := Int.emod_nonneg v (by norm_num)
  have hlt : v % 4294967296 < 4294967296 := Int.emod_lt_of_pos v (by norm_num)
  have htn : ((v % 4294967296).toNat : Int) = v % 4294967296 := Int.toNat_of_nonneg hnn
  have hmod : (v % 4294967296).toNat % 256 ^ 4 = (v % 4294967296).toNat := by
    apply Nat.mod_eq_of_lt; norm_num; omega
  rw [hmod]
  rcases le_or_lt 0 v with hv | hv
  · have hvv : v % 4294967296 = v := Int.emod_eq_of_lt hv (by omega)
    rw [hvv] at htn
    split <;> omega
  · have hvv : v % 4294967296 = v + 4294967296 := by omega
    rw [hvv] at htn
    split <;> omega

theorem length_pack_i32 (v : Int) : (pack_i32 v).length = 4 := by
  simp [pack_i32, length_le_bytes]

theorem length_pack_u32 (n : Nat) : (pack_u32 n).length = 4 := by
  simp [pack_u32, length_le_bytes]

theorem length_pack_u8 (n : Nat) : (pack_u8 n).length = 1 := by
  simp [pack_u8]

/-! ### Text codec lemmas -/

theorem length_fit_str (s : List Nat) (w : Nat) : (fit_str s w).length = w := by
  simp [fit_str, List.length_take]

theorem fit_str_eq (s : List Nat) (w : Nat) (h : s.length ≤ w) :
    fit_str s w = s ++ List.replicate (w - s.length) 32 := by
  simp [fit_str, List.take_of_length_le h]

theorem rstrip_append_replicate (c : Nat) (l : List Nat) (k : Nat) :
    rstrip c (l ++ List.replicate k c) = rstrip c l := by
  unfold rstrip
  rw [List.reverse_append, List.reverse_replicate]
  congr 1
  induction k with
  | zero => simp
  | succ k _ => simp [List.replicate_succ]

theorem rstrip_eq_self (c : Nat) (l : List Nat)
    (h : ∀ x, l.getLast? = some x → x ≠ c) : rstrip c l = l := by
  unfold rstrip
  cases hl : l.reverse with
  | nil =>
    have : l = [] := by simpa using congrArg List.reverse hl
    simp [this]
  | cons a t =>
    have ha : l.getLast? = some a := by
      rw [← List.head?_reverse, hl]; rfl
    have hne : (a == c) = false := by
      simp only [beq_eq_false_iff_ne]
      exact h a ha
    rw [List.dropWhile_cons, hne]
    simp only [Bool.false_eq_true, if_false]
    rw [← hl, List.reverse_reverse]

theorem length_dropWhile_le_self {α : Type} (p : α → Bool) (l : List α) :
    (l.dropWhile p).length ≤ l.length := by
  induction l with
  | nil => simp [List.dropWhile]
  | cons a t ih =>
    rw [List.dropWhile_cons]
    split
    · exact le_trans ih (by simp)
    · simp

theorem length_rstrip_le (c : Nat) (l : List Nat) :
    (rstrip c l).length ≤ l.length := by
  unfold rstrip
  simpa using length_dropWhile_le_self (fun x => x == c) l.reverse

theorem dropWhile_head_false {α : Type} (p : α → Bool) (m : List α) (a : α)
    (t : List α) (h : m.dropWhile p = a :: t) : p a = false := by
  induction m with
  | nil => simp [List.dropWhile] at h
  | cons b m' ih =>
    rw [List.dropWhile_cons] at h
    by_cases hb : p b
    · rw [if_pos hb] at h; exact ih h
    · rw [if_neg hb] at h
      cases h
      simpa using hb

theorem getLast?_rstrip (c : Nat) (l : List Nat) (x : Nat)
    (h : (rstrip c l).getLast? = some x) : x ≠ c := by
  unfold rstrip at h
  rw [List.getLast?_reverse] at h
  cases hd : l.reverse.dropWhile (fun y => y == c) with
  | nil => rw [hd] at h; simp at h
  | cons a t =>
    rw [hd] at h
    simp only [List.head?_cons, Option.some_inj] at h
    subst h
    have := dropWhile_head_false (fun y => y == c) l.reverse a t hd
    simpa using this

theorem bytes_to_str_fit_str (s : List Nat) (w : Nat) (h : goodStr s w) :
    bytes_to_str (fit_str s w) = s := by
  obtain ⟨h1, h2, h3⟩ := h
  rw [fit_str_eq s w h1]
  unfold bytes_to_str
  rw [rstrip_append_replicate]
  rw [rstrip_eq_self 32 s (fun x hx => by intro e; subst e; exact h2 hx)]
  rw [rstrip_eq_self 0 s (fun x hx => by intro e; subst e; exact h3 hx)]

/-! ### Record codec lemmas -/

theorem length_pack_book (i t c a p y : List Nat) (cp st : Nat) (nf : Int) :
    (pack_book i t c a p y cp st nf).length = BOOK_SIZE := by
  simp [pack_book, length_fit_str, length_pack_u32, length_pack_u8, length_pack_i32]

theorem length_pack_member (i n b : List Nat) (ml st : Nat) (nf : Int) :
    (pack_member i n b ml st nf).length = MEM_SIZE := by
  simp [pack_member, length_fit_str, length_pack_u32, length_pack_u8, length_pack_i32]

theorem length_pack_loan (i : List Nat) (op : Nat) (m b ld dd rd : List Nat)
    (st : Nat) (nf : Int) :
    (pack_loan i op m b ld dd rd st nf).length = LOAN_SIZE := by
  simp [pack_loan, length_fit_str, length_pack_u32, length_pack_u8, length_pack_i32]

/-- Hypothesis-free decomposition of decode-after-encode for books. -/
theorem unpack_pack_book_raw (i t c a p y : List Nat) (cp st : Nat) (nf : Int) :
    unpack_book (pack_book i t c a p y cp st nf) =
      { book_id := bytes_to_str (fit_str i 4), title := bytes_to_str (fit_str t 60),
        category := bytes_to_str (fit_str c 20), author := bytes_to_str (fit_str a 30),
        publisher := bytes_to_str (fit_str p 30), year := bytes_to_str (fit_str y 4),
        copies := cp % 4294967296, status := st % 256,
        next_free := unpack_i32 (pack_i32 nf) } := by
  unfold pack_book unpack_book
  simp only [List.append_assoc]
  rw [take_append_len _ _ 4 (length_fit_str i 4), drop_append_len _ _ 4 (length_fit_str i 4)]
  rw [take_append_len _ _ 60 (length_fit_str t 60), drop_append_len _ _ 60 (length_fit_str t 60)]
  rw [take_append_len _ _ 20 (length_fit_str c 20), drop_append_len _ _ 20 (length_fit_str c 20)]
  rw [take_append_len _ _ 30 (length_fit_str a 30), drop_append_len _ _ 30 (length_fit_str a 30)]
  rw [take_append_len _ _ 30 (length_fit_str p 30), drop_append_len _ _ 30 (length_fit_str p 30)]
  rw [take_append_len _ _ 4 (length_fit_str y 4), drop_append_len _ _ 4 (length_fit_str y 4)]
  rw [take_append_len _ _ 4 (length_pack_u32 cp), drop_append_len _ _ 4 (length_pack_u32 cp)]
  rw [take_append_len _ _ 1 (length_pack_u8 st), drop_append_len _ _ 1 (length_pack_u8 st)]
  rw [List.take_of_length_le (le_of_eq (length_pack_i32 nf))]
  have hcp : from_le (pack_u32 cp) = cp % 4294967296 := by
    rw [pack_u32, from_le_le_bytes]; norm_num
  have hst : from_le (pack_u8 st) = st % 256 := by
    simp [from_le, pack_u8]
  rw [hcp, hst]

/-- Hypothesis-free decomposition of decode-after-encode for members. -/
theorem unpack_pack_member_raw (i n b : List Nat) (ml st : Nat) (nf : Int) :
    unpack_member (pack_member i n b ml st nf) =
      { member_id := bytes_to_str (fit_str i 4), name := bytes_to_str (fit_str n 50),
        birth := bytes_to_str (fit_str b 10), max_loan := ml % 4294967296,
        status := st % 256, next_free := unpack_i32 (pack_i32 nf) } := by
  unfold pack_member unpack_member
  simp only [List.append_assoc]
  rw [take_append_len _ _ 4 (length_fit_str i 4), drop_append_len _ _ 4 (length_fit_str i 4)]
  rw [take_append_len _ _ 50 (length_fit_str n 50), drop_append_len _ _ 50 (length_fit_str n 50)]
  rw [take_append_len _ _ 10 (length_fit_str b 10), drop_append_len _ _ 10 (length_fit_str b 10)]
  rw [take_append_len _ _ 4 (length_pack_u32 ml), drop_append_len _ _ 4 (length_pack_u32 ml)]
  rw [take_append_len _ _ 1 (length_pack_u8 st), drop_append_len _ _ 1 (length_pack_u8 st)]
  rw [List.take_of_length_le (le_of_eq (length_pack_i32 nf))]
  have hml : from_le (pack_u32 ml) = ml % 4294967296 := by
    rw [pack_u32, from_le_le_bytes]; norm_num
  have hst : from_le (pack_u8 st) = st % 256 := by
    simp [from_le, pack_u8]
  rw [hml, hst]

/-- Hypothesis-free decomposition of decode-after-encode for loans. -/
theorem unpack_pack_loan_raw (i : List Nat) (op : Nat) (m b ld dd rd : List Nat)
    (st : Nat) (nf : Int) :
    unpack_loan (pack_loan i op m b ld dd rd st nf) =
      { loan_id := bytes_to_str (fit_str i 4), op_type := op % 256,
        member_id := bytes_to_str (fit_str m 4), book_id := bytes_to_str (fit_str b 4),
        loan_date := bytes_to_str (fit_str ld 10), due_date := bytes_to_str (fit_str dd 10),
        return_date := bytes_to_str (fit_str rd 10), status := st % 256,
        next_free := unpack_i32 (pack_i32 nf) } := by
  unfold pack_loan unpack_loan
  simp only [List.append_assoc]
  rw [take_append_len _ _ 4 (length_fit_str i 4), drop_append_len _ _ 4 (length_fit_str i 4)]
  rw [take_append_len _ _ 1 (length_pack_u8 op), drop_append_len _ _ 1 (length_pack_u8 op)]
  rw [take_append_len _ _ 4 (length_fit_str m 4), drop_append_len _ _ 4 (length_fit_str m 4)]
  rw [take_append_len _ _ 4 (length_fit_str b 4), drop_append_len _ _ 4 (length_fit_str b 4)]
  rw [take_append_len _ _ 10 (length_fit_str ld 10), drop_append_len _ _ 10 (length_fit_str ld 10)]
  rw [take_append_len _ _ 10 (length_fit_str dd 10), drop_append_len _ _ 10 (length_fit_str dd 10)]
  rw [take_append_len _ _ 10 (length_fit_str rd 10), drop_append_len _ _ 10 (length_fit_str rd 10)]
  rw [take_append_len _ _ 1 (length_pack_u8 st), drop_append_len _ _ 1 (length_pack_u8 st)]
  rw [List.take_of_length_le (le_of_eq (length_pack_i32 nf))]
  have hop : from_le (pack_u8 op) = op % 256 := by
    simp [from_le, pack_u8]
  have hst : from_le (pack_u8 st) = st % 256 := by
    simp [from_le, pack_u8]
  rw [hop, hst]

/-- The trailing 4 bytes of a packed book slot are its `next_free` field. -/
theorem tail4_pack_book (i t c a p y : List Nat) (cp st : Nat) (nf : Int) :
    ((pack_book i t c a p y cp st nf).drop 153).take 4 = pack_i32 nf := by
  unfold pack_book
  rw [drop_append_len _ _ 153 (by
    simp [length_fit_str, length_pack_u32, length_pack_u8])]
  exact List.take_of_length_le (le_of_eq (length_pack_i32 nf))

/-- The trailing 4 bytes of a packed member slot are its `next_free` field. -/
theorem tail4_pack_member (i n b : List Nat) (ml st : Nat) (nf : Int) :
    ((pack_member i n b ml st nf).drop 69).take 4 = pack_i32 nf := by
  unfold pack_member
  rw [drop_append_len _ _ 69 (by
    simp [length_fit_str, length_pack_u32, length_pack_u8])]
  exact List.take_of_length_le (le_of_eq (length_pack_i32 nf))

/-- The trailing 4 bytes of a packed loan slot are its `next_free` field. -/
theorem tail4_pack_loan (i : List Nat) (op : Nat) (m b ld dd rd : List Nat)
    (st : Nat) (nf : Int) :
    ((pack_loan i op m b ld dd rd st nf).drop 44).take 4 = pack_i32 nf := by
  unfold pack_loan
  rw [drop_append_len _ _ 44 (by
    simp [length_fit_str, length_pack_u32, length_pack_u8])]
  exact List.take_of_length_le (le_of_eq (length_pack_i32 nf))

/-! ### Store-level lemmas -/

theorem read_header_write_header (f : File) (num fh : Int)
    (h1 : -2147483648 ≤ num) (h2 : num < 2147483648)
    (h3 : -2147483648 ≤ fh) (h4 : fh < 2147483648) :
    read_header (write_header f num fh) = (num, fh) := by
  unfold read_header write_header
  have hl : (pack_i32 num ++ pack_i32 fh).length = 8 := by
    simp [length_pack_i32]
  have hr := readBytes_writeBytes_self f 0 (pack_i32 num ++ pack_i32 fh)
  rw [hl] at hr
  rw [hr, hl]
  norm_num
  rw [take_append_len _ _ 4 (length_pack_i32 num), drop_append_len _ _ 4 (length_pack_i32 num)]
  rw [unpack_pack_i32 num h1 h2, unpack_pack_i32 fh h3 h4]
  exact ⟨rfl, rfl⟩

theorem read_header_write_record (f : File) (i : Nat) (p : List Nat) (s : Nat)
    (hf : 8 ≤ f.length) :
    read_header (write_record_at f i p s) = read_header f := by
  unfold read_header write_record_at record_offset
  rw [readBytes_writeBytes_of_le f (8 + i * s) p 0 8 (by omega) (by omega)]

theorem read_record_write_header (f : File) (n fh : Int) (i s : Nat) :
    read_record_bytes (write_header f n fh) i s = read_record_bytes f i s := by
  unfold read_record_bytes write_header record_offset
  rw [readBytes_writeBytes_of_ge f 0 (pack_i32 n ++ pack_i32 fh) (8 + i * s) s
    (by simp [length_pack_i32]) (by omega)]

theorem read_record_write_same (f : File) (i : Nat) (p : List Nat) (s : Nat)
    (hp : p.length = s) :
    read_record_bytes (write_record_at f i p s) i s = some p := by
  unfold read_record_bytes write_record_at
  have hr := readBytes_writeBytes_self f (record_offset i s) p
  rw [hp] at hr
  rw [hr]
  simp [hp]

theorem read_record_write_other (f : File) (i j : Nat) (p : List Nat) (s : Nat)
    (hij : i ≠ j) (hp : p.length = s)
    (hlen : record_offset j s + s ≤ f.length) :
    read_record_bytes (write_record_at f i p s) j s = read_record_bytes f j s := by
  unfold read_record_bytes write_record_at record_offset at *
  rcases lt_or_gt_of_ne hij with hlt | hgt
  · have h1 : (i + 1) * s ≤ j * s := Nat.mul_le_mul_right s (by omega)
    have h2 : (i + 1) * s = i * s + s := by ring
    rw [readBytes_writeBytes_of_ge f (8 + i * s) p (8 + j * s) s (by omega) (by omega)]
  · have h1 : (j + 1) * s ≤ i * s := Nat.mul_le_mul_right s (by omega)
    have h2 : (j + 1) * s = j * s + s := by ring
    rw [readBytes_writeBytes_of_le f (8 + i * s) p (8 + j * s) s (by omega) (by omega)]

theorem read_record_of_le (f : File) (i s : Nat)
    (h : record_offset i s + s ≤ f.length) :
    read_record_bytes f i s = some (readBytes f (record_offset i s) s) := by
  unfold read_record_bytes
  rw [if_neg]
  rw [length_readBytes]
  unfold record_offset at *
  omega

theorem length_write_record (f : File) (i : Nat) (p : List Nat) (s : Nat)
    (hp : p.length = s) (hlen : record_offset i s + s ≤ f.length) :
    (write_record_at f i p s).length = f.length := by
  rw [write_record_at, length_writeBytes]
  omega

theorem length_write_header (f : File) (n fh : Int) (h : 8 ≤ f.length) :
    (write_header f n fh).length = f.length := by
  rw [write_header, length_writeBytes]
  simp [length_pack_i32]
  omega

theorem slot_bound (j num s : Nat) (h : j < num) :
    record_offset j s + s ≤ 8 + num * s := by
  unfold record_offset
  have h1 : (j + 1) * s ≤ num * s := Nat.mul_le_mul_right s (by omega)
  have h2 : (j + 1) * s = j * s + s := by ring
  omega

/-! ### Scan lemmas for `find_record_by_id` and `list_all_records` -/

theorem find_from_readable (f : File) (s : Nat) (t : List Nat) :
    ∀ fuel start,
      (∀ i, start ≤ i → i < start + fuel → (read_record_bytes f i s).isSome) →
      find_from f s t start fuel =
        Except.ok (((List.range' start fuel).filterMap
          (fun i => (read_record_bytes f i s).map (fun d => (i, d)))).find?
            (fun p => id_of p.2 == t)) := by
  intro fuel
  induction fuel with
  | zero => intro start _; simp [find_from]
  | succ n ih =>
    intro start h
    have hs : (read_record_bytes f start s).isSome := h start (le_refl _) (by omega)
    obtain ⟨d, hd⟩ := Option.isSome_iff_exists.mp hs
    rw [List.range'_succ]
    unfold find_from
    rw [hd]
    simp only [List.filterMap_cons, hd, Option.map_some']
    by_cases hid : id_of d = t
    · rw [if_pos hid]
      rw [List.find?_cons_of_pos]
      simpa using hid
    · rw [if_neg hid]
      rw [List.find?_cons_of_neg]
      · exact ih (start + 1) (fun i h1 h2 => h i (by omega) (by omega))
      · simpa using hid

theorem find_from_abort (f : File) (s : Nat) (t : List Nat) :
    ∀ fuel start i, start ≤ i → i < start + fuel →
      (∀ j, start ≤ j → j < i → ∃ d, read_record_bytes f j s = some d ∧ id_of d ≠ t) →
      read_record_bytes f i s = none →
      find_from f s t start fuel = Except.error () := by
  intro fuel
  induction fuel with
  | zero => intro start i h1 h2 _ _; omega
  | succ n ih =>
    intro start i h1 h2 hprev hnone
    unfold find_from
    rcases Nat.eq_or_lt_of_le h1 with he | hlt
    · subst he
      rw [hnone]
    · obtain ⟨d, hd, hne⟩ := hprev start (le_refl _) hlt
      simp only [hd]
      rw [if_neg hne]
      exact ih (start + 1) i hlt (by omega)
        (fun j hj1 hj2 => hprev j (by omega) hj2) hnone

/-! ### Claim theorems -/

/-- Claim C10: reading the header of a file shorter than 8 bytes yields
`(record_count, free_head) = (0, -1)` instead of failing, so the store is
treated as empty. -/
theorem C10_short_header (f : File) (h : f.length < 8) :
    read_header f = (0, -1) := by
  unfold read_header
  rw [if_pos]
  rw [length_readBytes]
  omega

theorem C10_short_header_witness :
    ([] : File).length < 8 ∧ read_header [] = (0, -1) :=
  ⟨by decide, C10_short_header [] (by decide)⟩

/-- Claim C7: soft delete of an identifier whose first matching record is
already deleted reports `AlreadyDeleted` and returns the store completely
unchanged — in particular the free list is not spliced again.  Stated for
both the book store and the member store. -/
theorem C7_already_deleted :
    (∀ (f : File) (bid : List Nat) (idx : Nat) (data : List Nat),
      find_record_by_id f BOOK_SIZE bid = Except.ok (some (idx, data)) →
      (unpack_book data).status = 0 →
      delete_book f bid = Except.ok (f, DelResult.alreadyDeleted)) ∧
    (∀ (f : File) (mid : List Nat) (idx : Nat) (data : List Nat),
      find_record_by_id f MEM_SIZE mid = Except.ok (some (idx, data)) →
      (unpack_member data).status = 0 →
      delete_member f mid = Except.ok (f, DelResult.alreadyDeleted)) := by
  constructor
  · intro f bid idx data hfind hst
    unfold delete_book
    rw [hfind]
    simp only [hst, if_pos]
  · intro f mid idx data hfind hst
    unfold delete_member
    rw [hfind]
    simp only [hst, if_pos]

theorem C7_already_deleted_witness :
    (find_record_by_id cw7_books BOOK_SIZE [66, 48, 48, 49]
        = Except.ok (some (0, cw7_book)) ∧
      (unpack_book cw7_book).status = 0 ∧
      delete_book cw7_books [66, 48, 48, 49]
        = Except.ok (cw7_books, DelResult.alreadyDeleted)) ∧
    (find_record_by_id cw7_members MEM_SIZE [77, 48, 48, 49]
        = Except.ok (some (0, cw7_member)) ∧
      (unpack_member cw7_member).status = 0 ∧
      delete_member cw7_members [77, 48, 48, 49]
        = Except.ok (cw7_members, DelResult.alreadyDeleted)) :=
  ⟨⟨by decide, by decide,
      C7_already_deleted.1 cw7_books [66, 48, 48, 49] 0 cw7_book (by decide) (by decide)⟩,
    ⟨by decide, by decide,
      C7_already_deleted.2 cw7_members [77, 48, 48, 49] 0 cw7_member (by decide) (by decide)⟩⟩

/-- Claim C8 (amended): `find_record_by_id` is a linear scan that returns
the first (lowest-index) match or not-found when every slot below the
record count is readable; but unlike `list_all_records` it does not skip a
slot whose read fails — the failure aborts the whole scan with an error. -/
theorem C8_find_scan :
    (∀ (f : File) (s : Nat) (t : List Nat),
      slots_readable f (read_header f).1.toNat s →
      find_record_by_id f s t =
        Except.ok ((list_all_records f s).find? (fun p => id_of p.2 == t))) ∧
    (∀ (f : File) (s : Nat) (t : List Nat) (i : Nat),
      i < (read_header f).1.toNat →
      (∀ j, j < i → ∃ d, read_record_bytes f j s = some d ∧ id_of d ≠ t) →
      read_record_bytes f i s = none →
      find_record_by_id f s t = Except.error ()) := by
  constructor
  · intro f s t h
    unfold find_record_by_id list_all_records
    rw [find_from_readable f s t (read_header f).1.toNat 0
      (fun i _ h2 => h i (by omega))]
    rw [List.range_eq_range']
  · intro f s t i hi hprev hnone
    unfold find_record_by_id
    exact find_from_abort f s t (read_header f).1.toNat 0 i (by omega) (by omega)
      (fun j _ hj => hprev j hj) hnone

theorem C8_find_scan_witness :
    (slots_readable cw8_books (read_header cw8_books).1.toNat BOOK_SIZE ∧
      find_record_by_id cw8_books BOOK_SIZE [88] =
        Except.ok ((list_all_records cw8_books BOOK_SIZE).find?
          (fun p => id_of p.2 == [88]))) ∧
    (0 < (read_header cw8_trunc).1.toNat ∧
      read_record_bytes cw8_trunc 0 BOOK_SIZE = none ∧
      find_record_by_id cw8_trunc BOOK_SIZE [88] = Except.error ()) :=
  ⟨⟨by decide, C8_find_scan.1 cw8_books BOOK_SIZE [88] (by decide)⟩,
    ⟨by decide, by decide,
      C8_find_scan.2 cw8_trunc BOOK_SIZE [88] 0 (by decide)
        (fun j hj => absurd hj (by omega)) (by decide)⟩⟩

/-- Claim C8, counterexample to the claim as stated: on a truncated file
(header records one slot, slot bytes missing) the scan does not skip the
unreadable index and return not-found — it aborts with an error. -/
theorem C8_counterexample :
    find_record_by_id cw8_trunc BOOK_SIZE [66, 48, 48, 49] = Except.error () := by
  decide

theorem mem_of_getLast?_eq {α : Type} {l : List α} {x : α}
    (h : l.getLast? = some x) : x ∈ l := by
  obtain ⟨hne, he⟩ := List.mem_getLast?_eq_getLast (Option.mem_def.mpr h)
  rw [he]
  exact List.getLast_mem hne

theorem decimalAux_length_le (fuel : Nat) :
    ∀ n w, n ≤ fuel → n < 10 ^ w → (decimalAux fuel n).length ≤ w := by
  induction fuel with
  | zero => intro n w _ _; simp [decimalAux]
  | succ fuel ih =>
    intro n w hn hw
    unfold decimalAux
    by_cases h0 : n = 0
    · simp [h0]
    · rw [if_neg h0]
      have hwpos : w ≠ 0 := by
        intro hw0; rw [hw0] at hw; simp at hw; omega
      have hstep : (10:Nat) ^ w = 10 ^ (w - 1) * 10 := by
        rw [← pow_succ]; congr 1; omega
      have hdiv : n / 10 < 10 ^ (w - 1) := by
        rw [Nat.div_lt_iff_lt_mul (by norm_num)]
        omega
      have hfuel : n / 10 ≤ fuel := by omega
      have := ih (n / 10) (w - 1) hfuel hdiv
      simp only [List.length_append, List.length_cons, List.length_nil]
      omega

theorem decimalAux_mem (fuel : Nat) :
    ∀ n x, x ∈ decimalAux fuel n → 48 ≤ x ∧ x < 58 := by
  induction fuel with
  | zero => intro n x hx; simp [decimalAux] at hx
  | succ fuel ih =>
    intro n x hx
    unfold decimalAux at hx
    by_cases h0 : n = 0
    · simp [h0] at hx
    · rw [if_neg h0] at hx
      rcases List.mem_append.mp hx with hx | hx
      · exact ih (n / 10) x hx
      · have : x = n % 10 + 48 := by simpa using hx
        have : n % 10 < 10 := Nat.mod_lt n (by norm_num)
        omega

theorem goodStr_decimal (n w : Nat) (h : n < 10 ^ w) : goodStr (decimal n) w := by
  refine ⟨decimalAux_length_le n n w (le_refl n) h, ?_, ?_⟩
  · intro he
    have := decimalAux_mem n n 32 (mem_of_getLast?_eq he)
    omega
  · intro he
    have := decimalAux_mem n n 0 (mem_of_getLast?_eq he)
    omega

/-- Claim C2 (amended): decode after encode is the identity for every
record type, for records whose text fields fit their declared byte widths
and additionally do not end in a padding byte (space or NUL), and whose
numeric fields are in range; truncation of over-long text is a function
of the first `w` bytes, hence deterministic. -/
theorem C2_codec_roundtrip :
    (∀ b : Book,
      goodStr b.book_id 4 → goodStr b.title 60 → goodStr b.category 20 →
      goodStr b.author 30 → goodStr b.publisher 30 → goodStr b.year 4 →
      b.copies < 4294967296 → b.status < 256 →
      -2147483648 ≤ b.next_free → b.next_free < 2147483648 →
      unpack_book (pack_book b.book_id b.title b.category b.author
        b.publisher b.year b.copies b.status b.next_free) = b) ∧
    (∀ m : Member,
      goodStr m.member_id 4 → goodStr m.name 50 → goodStr m.birth 10 →
      m.max_loan < 4294967296 → m.status < 256 →
      -2147483648 ≤ m.next_free → m.next_free < 2147483648 →
      unpack_member (pack_member m.member_id m.name m.birth m.max_loan
        m.status m.next_free) = m) ∧
    (∀ l : Loan,
      goodStr l.loan_id 4 → goodStr l.member_id 4 → goodStr l.book_id 4 →
      goodStr l.loan_date 10 → goodStr l.due_date 10 → goodStr l.return_date 10 →
      l.op_type < 256 → l.status < 256 →
      -2147483648 ≤ l.next_free → l.next_free < 2147483648 →
      unpack_loan (pack_loan l.loan_id l.op_type l.member_id l.book_id
        l.loan_date l.due_date l.return_date l.status l.next_free) = l) ∧
    (∀ (s : List Nat) (w : Nat),
      (fit_str s w).length = w ∧ fit_str s w = fit_str (s.take w) w) := by
  refine ⟨?_, ?_, ?_, ?_⟩
  · rintro ⟨i, t, c, a, p, y, cp, st, nf⟩ h1 h2 h3 h4 h5 h6 h7 h8 h9 h10
    simp only at h1 h2 h3 h4 h5 h6 h7 h8 h9 h10
    rw [unpack_pack_book_raw]
    rw [bytes_to_str_fit_str _ _ h1, bytes_to_str_fit_str _ _ h2,
      bytes_to_str_fit_str _ _ h3, bytes_to_str_fit_str _ _ h4,
      bytes_to_str_fit_str _ _ h5, bytes_to_str_fit_str _ _ h6,
      Nat.mod_eq_of_lt h7, Nat.mod_eq_of_lt h8, unpack_pack_i32 nf h9 h10]
  · rintro ⟨i, n, b, ml, st, nf⟩ h1 h2 h3 h4 h5 h6 h7
    simp only at h1 h2 h3 h4 h5 h6 h7
    rw [unpack_pack_member_raw]
    rw [bytes_to_str_fit_str _ _ h1, bytes_to_str_fit_str _ _ h2,
      bytes_to_str_fit_str _ _ h3,
      Nat.mod_eq_of_lt h4, Nat.mod_eq_of_lt h5, unpack_pack_i32 nf h6 h7]
  · rintro ⟨i, op, m, b, ld, dd, rd, st, nf⟩ h1 h2 h3 h4 h5 h6 h7 h8 h9 h10
    simp only at h1 h2 h3 h4 h5 h6 h7 h8 h9 h10
    rw [unpack_pack_loan_raw]
    rw [bytes_to_str_fit_str _ _ h1, bytes_to_str_fit_str _ _ h2,
      bytes_to_str_fit_str _ _ h3, bytes_to_str_fit_str _ _ h4,
      bytes_to_str_fit_str _ _ h5, bytes_to_str_fit_str _ _ h6,
      Nat.mod_eq_of_lt h7, Nat.mod_eq_of_lt h8, unpack_pack_i32 nf h9 h10]
  · intro s w
    refine ⟨length_fit_str s w, ?_⟩
    simp [fit_str, List.take_take]

theorem C2_codec_roundtrip_witness :
    goodStr [66, 48, 48, 49] 4 ∧ (3 : Nat) < 4294967296 ∧
    unpack_book (pack_book [66, 48, 48, 49] [97] [99] [97, 117] [112]
      [50, 48, 50, 48] 3 1 (-1)) =
      { book_id := [66, 48, 48, 49], title := [97], category := [99],
        author := [97, 117], publisher := [112], year := [50, 48, 50, 48],
        copies := 3, status := 1, next_free := -1 } :=
  ⟨by decide, by decide,
    C2_codec_roundtrip.1
      { book_id := [66, 48, 48, 49], title := [97], category := [99],
        author := [97, 117], publisher := [112], year := [50, 48, 50, 48],
        copies := 3, status := 1, next_free := -1 }
      (by decide) (by decide) (by decide) (by decide) (by decide) (by decide)
      (by decide) (by decide) (by decide) (by decide)⟩

/-- Claim C2, counterexample to the claim as stated: a book whose title
fits its 60-byte width but ends in a space (`"a "`) does not survive the
round trip — decoding strips the trailing space. -/
theorem C2_counterexample :
    unpack_book (pack_book [66] [97, 32] [] [] [] [] 3 1 (-1)) ≠
      { book_id := [66], title := [97, 32], category := [], author := [],
        publisher := [], year := [], copies := 3, status := 1, next_free := -1 } := by
  decide

/-- Claim C9: returning an outstanding loan rewrites the referenced book
slot with status 1 regardless of its stored status, so a soft-deleted
book (status 0) is resurrected as active, while the books header — and
hence the free-list head, which may still reach that slot — is untouched. -/
theorem C9_return_resurrects (books loans : File) (today : Nat) (lid : List Nat)
    (l_idx : Nat) (data : List Nat) (b_idx : Nat) (bdata : List Nat)
    (hfindL : find_record_by_id loans LOAN_SIZE lid = Except.ok (some (l_idx, data)))
    (hstat : (unpack_loan data).status ≠ 0)
    (hfindB : find_record_by_id books BOOK_SIZE (unpack_loan data).book_id
      = Except.ok (some (b_idx, bdata)))
    (hdel : (unpack_book bdata).status = 0)
    (h8 : 8 ≤ books.length) :
    (unpack_book bdata).status = 0 ∧
    ∃ books1 loans1,
      return_item books loans today lid = Except.ok (books1, loans1, RetResult.returned) ∧
      (∃ d, read_record_bytes books1 b_idx BOOK_SIZE = some d ∧
        (unpack_book d).status = 1) ∧
      read_header books1 = read_header books := by
  refine ⟨hdel, ?_⟩
  unfold return_item
  rw [hfindL]
  simp only [eq_false hstat, if_false]
  rw [hfindB]
  refine ⟨_, _, rfl, ⟨_, read_record_write_same _ _ _ _ (length_pack_book _ _ _ _ _ _ _ _ _), ?_⟩,
    read_header_write_record _ _ _ _ h8⟩
  rw [unpack_pack_book_raw]

theorem C9_return_resurrects_witness :
    (unpack_book cw9_book).status = 0 ∧
    ∃ books1 loans1,
      return_item cw9_books cw9_loans 5 [76, 48, 48, 49]
        = Except.ok (books1, loans1, RetResult.returned) ∧
      (∃ d, read_record_bytes books1 0 BOOK_SIZE = some d ∧
        (unpack_book d).status = 1) ∧
      read_header books1 = read_header cw9_books :=
  C9_return_resurrects cw9_books cw9_loans 5 [76, 48, 48, 49] 0 cw9_loan 0 cw9_book
    (by decide) (by decide) (by decide) (by decide) (by decide)

/-- Claim C4: returning an outstanding lending record rewrites it in place
as closed (operation 2, status 0, return date = today) exactly once — all
other loan slots and the loans header are untouched — and increments the
referenced book's available copies by exactly 1; a record that is already
closed is reported and skipped with no state mutation. -/
theorem C4_return_postcondition :
    (∀ (books loans : File) (today : Nat) (lid : List Nat) (l_idx : Nat)
        (data : List Nat),
      find_record_by_id loans LOAN_SIZE lid = Except.ok (some (l_idx, data)) →
      (unpack_loan data).status = 0 →
      return_item books loans today lid
        = Except.ok (books, loans, RetResult.alreadyReturned)) ∧
    (∀ (books loans : File) (today : Nat) (lid : List Nat) (l_idx : Nat)
        (data : List Nat) (b_idx : Nat) (bdata : List Nat),
      find_record_by_id loans LOAN_SIZE lid = Except.ok (some (l_idx, data)) →
      (unpack_loan data).status ≠ 0 →
      find_record_by_id books BOOK_SIZE (unpack_loan data).book_id
        = Except.ok (some (b_idx, bdata)) →
      (unpack_book bdata).copies + 1 < 4294967296 →
      today < 10000000000 →
      8 ≤ books.length → 8 ≤ loans.length →
      ∃ books1 loans1,
        return_item books loans today lid
          = Except.ok (books1, loans1, RetResult.returned) ∧
        (∃ d, read_record_bytes loans1 l_idx LOAN_SIZE = some d ∧
          (unpack_loan d).op_type = 2 ∧ (unpack_loan d).status = 0 ∧
          (unpack_loan d).return_date = date_str today) ∧
        (∃ d, read_record_bytes books1 b_idx BOOK_SIZE = some d ∧
          (unpack_book d).copies = (unpack_book bdata).copies + 1) ∧
        (∀ j, j ≠ l_idx → record_offset j LOAN_SIZE + LOAN_SIZE ≤ loans.length →
          read_record_bytes loans1 j LOAN_SIZE = read_record_bytes loans j LOAN_SIZE) ∧
        read_header loans1 = read_header loans ∧
        read_header books1 = read_header books) := by
  constructor
  · intro books loans today lid l_idx data hfind hstat
    unfold return_item
    rw [hfind]
    simp only [hstat, if_pos]
  · intro books loans today lid l_idx data b_idx bdata hfindL hstat hfindB hcp htoday h8B h8L
    unfold return_item
    rw [hfindL]
    simp only [eq_false hstat, if_false]
    rw [hfindB]
    refine ⟨_, _, rfl, ⟨_, read_record_write_same _ _ _ _ (length_pack_loan _ _ _ _ _ _ _ _ _), ?_⟩,
      ⟨_, read_record_write_same _ _ _ _ (length_pack_book _ _ _ _ _ _ _ _ _), ?_⟩,
      ?_, read_header_write_record _ _ _ _ h8L, read_header_write_record _ _ _ _ h8B⟩
    · rw [unpack_pack_loan_raw]
      refine ⟨rfl, rfl, ?_⟩
      exact bytes_to_str_fit_str _ _ (goodStr_decimal today 10 htoday)
    · rw [unpack_pack_book_raw]
      simp only
      omega
    · intro j hj hlen
      rw [read_record_write_other loans l_idx j _ LOAN_SIZE (fun he => hj he.symm)
        (length_pack_loan _ _ _ _ _ _ _ _ _) hlen]

theorem C4_return_postcondition_witness :
    ((unpack_loan cw4_loan).status ≠ 0 ∧
      ∃ books1 loans1,
        return_item cw4_books cw4_loans 5 [76, 48, 48, 49]
          = Except.ok (books1, loans1, RetResult.returned) ∧
        (∃ d, read_record_bytes loans1 0 LOAN_SIZE = some d ∧
          (unpack_loan d).op_type = 2 ∧ (unpack_loan d).status = 0 ∧
          (unpack_loan d).return_date = date_str 5) ∧
        (∃ d, read_record_bytes books1 0 BOOK_SIZE = some d ∧
          (unpack_book d).copies = (unpack_book cw4_book).copies + 1) ∧
        (∀ j, j ≠ 0 → record_offset j LOAN_SIZE + LOAN_SIZE ≤ cw4_loans.length →
          read_record_bytes loans1 j LOAN_SIZE = read_record_bytes cw4_loans j LOAN_SIZE) ∧
        read_header loans1 = read_header cw4_loans ∧
        read_header books1 = read_header cw4_books) ∧
    ((unpack_loan cw4_loan_closed).status = 0 ∧
      return_item cw4_books cw4_loans_closed 5 [76, 48, 48, 50]
        = Except.ok (cw4_books, cw4_loans_closed, RetResult.alreadyReturned)) :=
  ⟨⟨by decide,
    C4_return_postcondition.2 cw4_books cw4_loans 5 [76, 48, 48, 49] 0 cw4_loan 0 cw4_book
      (by decide) (by decide) (by decide) (by decide) (by decide) (by decide) (by decide)⟩,
    ⟨by decide,
      C4_return_postcondition.1 cw4_books cw4_loans_closed 5 [76, 48, 48, 50] 0
        cw4_loan_closed (by decide) (by decide)⟩⟩

/-! ### Free-list allocation lemmas -/

theorem append_or_reuse_reuse (f : File) (num : Int) (k : Nat) (p frec : List Nat)
    (s : Nat) (hh : read_header f = (num, (k : Int)))
    (hread : read_record_bytes f k s = some frec) :
    append_or_reuse f p s =
      some (write_header (write_record_at f k p s) num
        (unpack_i32 ((frec.drop (s - 4)).take 4)), k) := by
  unfold append_or_reuse
  simp only [hh]
  rw [if_pos (show ((k : Int) ≠ -1) by omega)]
  rw [show ((k : Int)).toNat = k from Int.toNat_natCast k]
  rw [hread]

theorem append_or_reuse_append (f : File) (num : Nat) (p : List Nat) (s : Nat)
    (hh : read_header f = ((num : Int), -1)) :
    append_or_reuse f p s =
      some (write_header (write_record_at f num p s) ((num : Int) + 1) (-1), num) := by
  unfold append_or_reuse
  simp only [hh]
  rw [if_neg (show ¬((-1 : Int) ≠ -1) by omega)]
  rw [show ((num : Int)).toNat = num from Int.toNat_natCast num]

/-- Reusing the head of the free list when the head slot holds a packed
book: the allocator returns the head index, overwrites it with the new
bytes, and pops the stored `next_free` link into the header. -/
theorem append_reuse_book_node (f : File) (num : Int) (k : Nat) (p : List Nat)
    (i t c a pu y : List Nat) (cp st : Nat) (nf : Int)
    (hh : read_header f = (num, (k : Int)))
    (hread : read_record_bytes f k BOOK_SIZE = some (pack_book i t c a pu y cp st nf))
    (hn1 : -2147483648 ≤ num) (hn2 : num < 2147483648)
    (hnf1 : -2147483648 ≤ nf) (hnf2 : nf < 2147483648)
    (hp : p.length = BOOK_SIZE) :
    append_or_reuse f p BOOK_SIZE =
      some (write_header (write_record_at f k p BOOK_SIZE) num nf, k) ∧
    read_header (write_header (write_record_at f k p BOOK_SIZE) num nf) = (num, nf) ∧
    read_record_bytes (write_header (write_record_at f k p BOOK_SIZE) num nf) k BOOK_SIZE
      = some p ∧
    (∀ j, j ≠ k → record_offset j BOOK_SIZE + BOOK_SIZE ≤ f.length →
      read_record_bytes (write_header (write_record_at f k p BOOK_SIZE) num nf) j BOOK_SIZE
        = read_record_bytes f j BOOK_SIZE) ∧
    (record_offset k BOOK_SIZE + BOOK_SIZE ≤ f.length →
      (write_header (write_record_at f k p BOOK_SIZE) num nf).length = f.length) := by
  have htail : unpack_i32 (((pack_book i t c a pu y cp st nf).drop (BOOK_SIZE - 4)).take 4)
      = nf := by
    rw [show BOOK_SIZE - 4 = 153 from rfl]
    rw [tail4_pack_book, unpack_pack_i32 nf hnf1 hnf2]
  refine ⟨?_, ?_, ?_, ?_, ?_⟩
  · rw [append_or_reuse_reuse f num k p _ BOOK_SIZE hh hread, htail]
  · exact read_header_write_header _ num nf hn1 hn2 hnf1 hnf2
  · rw [read_record_write_header]
    exact read_record_write_same f k p BOOK_SIZE hp
  · intro j hj hb
    rw [read_record_write_header]
    exact read_record_write_other f k j p BOOK_SIZE (fun he => hj he.symm) hp hb
  · intro hb
    rw [length_write_header, length_write_record f k p BOOK_SIZE hp hb]
    rw [length_write_record f k p BOOK_SIZE hp hb]
    unfold record_offset at hb
    omega

/-- What `free_book_slot` does to a well-formed store: header becomes
`(num, idx)`, the slot becomes a free node whose `next_free` is the old
head, other slots and the length are untouched. -/
theorem free_book_slot_facts (f : File) (num : Nat) (fh : Int) (idx : Nat) (r : Book)
    (hh : read_header f = ((num : Int), fh))
    (hnum : num < 2147483648)
    (hfh1 : -2147483648 ≤ fh) (hfh2 : fh < 2147483648)
    (hidx : idx < num)
    (hlen : 8 + num * BOOK_SIZE ≤ f.length) :
    read_header (free_book_slot f idx r) = ((num : Int), (idx : Int)) ∧
    (free_book_slot f idx r).length = f.length ∧
    read_record_bytes (free_book_slot f idx r) idx BOOK_SIZE
      = some (pack_book r.book_id r.title r.category r.author r.publisher r.year
          r.copies 0 fh) ∧
    (∀ j, j ≠ idx → j < num →
      read_record_bytes (free_book_slot f idx r) j BOOK_SIZE
        = read_record_bytes f j BOOK_SIZE) := by
  have h8 : 8 ≤ f.length := by
    have := Nat.zero_le (num * BOOK_SIZE); omega
  have hbound : record_offset idx BOOK_SIZE + BOOK_SIZE ≤ f.length :=
    le_trans (slot_bound idx num BOOK_SIZE hidx) hlen
  unfold free_book_slot
  rw [hh]
  refine ⟨?_, ?_, ?_, ?_⟩
  · exact read_header_write_header _ _ _ (by omega) (by omega) (by omega) (by omega)
  · rw [length_write_header, length_write_record f idx _ BOOK_SIZE
      (length_pack_book _ _ _ _ _ _ _ _ _) hbound]
    rw [length_write_record f idx _ BOOK_SIZE (length_pack_book _ _ _ _ _ _ _ _ _) hbound]
    omega
  · rw [read_record_write_header]
    exact read_record_write_same f idx _ BOOK_SIZE (length_pack_book _ _ _ _ _ _ _ _ _)
  · intro j hj hjnum
    rw [read_record_write_header]
    exact read_record_write_other f idx j _ BOOK_SIZE (fun he => hj he.symm)
      (length_pack_book _ _ _ _ _ _ _ _ _)
      (le_trans (slot_bound j num BOOK_SIZE hjnum) hlen)

/-- Claim C1: slot reuse is LIFO.  On a well-formed store with header
`(num, fh)`: freeing any slot `k` makes `free_head = k`, and the next
create reuses exactly slot `k` and restores `free_head` to the
`next_free` value that was stored in `k`'s free node (the old `fh`);
freeing slots `A` then `B` makes the next two creates reuse `B` first and
`A` second, after which `free_head` is back to `fh`. -/
theorem C1_lifo_reuse (f : File) (num : Nat) (fh : Int) (A B : Nat)
    (recA recB : Book) (p1 p2 : List Nat)
    (hh : read_header f = ((num : Int), fh))
    (hnum : num < 2147483648)
    (hfh : fh = -1 ∨ (0 ≤ fh ∧ fh < (num : Int)))
    (hlen : 8 + num * BOOK_SIZE ≤ f.length)
    (hA : A < num) (hB : B < num) (hAB : A ≠ B)
    (hp1 : p1.length = BOOK_SIZE) (hp2 : p2.length = BOOK_SIZE) :
    (∀ (k : Nat) (rk : Book) (q : List Nat), k < num → q.length = BOOK_SIZE →
      read_header (free_book_slot f k rk) = ((num : Int), (k : Int)) ∧
      ∃ g, append_or_reuse (free_book_slot f k rk) q BOOK_SIZE = some (g, k) ∧
        read_header g = ((num : Int), fh)) ∧
    (∃ f3 f4,
      append_or_reuse (free_book_slot (free_book_slot f A recA) B recB) p1 BOOK_SIZE
        = some (f3, B) ∧
      read_header f3 = ((num : Int), (A : Int)) ∧
      append_or_reuse f3 p2 BOOK_SIZE = some (f4, A) ∧
      read_header f4 = ((num : Int), fh)) := by
  have hfh1 : -2147483648 ≤ fh := by rcases hfh with h | h <;> omega
  have hfh2 : fh < 2147483648 := by rcases hfh with h | h <;> omega
  constructor
  · intro k rk q hk hq
    obtain ⟨hH1, hL1, hS1, _⟩ :=
      free_book_slot_facts f num fh k rk hh hnum hfh1 hfh2 hk hlen
    refine ⟨hH1, ?_⟩
    obtain ⟨hAl1, hAl2, _, _, _⟩ :=
      append_reuse_book_node (free_book_slot f k rk) (↑num) k q _ _ _ _ _ _ _ _ _
        hH1 hS1 (by omega) (by omega) hfh1 hfh2 hq
    exact ⟨_, hAl1, hAl2⟩
  · obtain ⟨hH1, hL1, hS1, hO1⟩ :=
      free_book_slot_facts f num fh A recA hh hnum hfh1 hfh2 hA hlen
    obtain ⟨hH2, hL2, hS2, hO2⟩ :=
      free_book_slot_facts (free_book_slot f A recA) num (↑A) B recB hH1 hnum
        (by omega) (by omega) hB (by rw [hL1]; exact hlen)
    obtain ⟨hAl1, hAl2, _, hAl4, _⟩ :=
      append_reuse_book_node (free_book_slot (free_book_slot f A recA) B recB)
        (↑num) B p1 _ _ _ _ _ _ _ _ _ hH2 hS2 (by omega) (by omega)
        (by omega) (by omega) hp1
    have hSA : read_record_bytes
        (write_header (write_record_at
          (free_book_slot (free_book_slot f A recA) B recB) B p1 BOOK_SIZE) (↑num) (↑A))
        A BOOK_SIZE
        = some (pack_book recA.book_id recA.title recA.category recA.author
            recA.publisher recA.year recA.copies 0 fh) := by
      rw [hAl4 A (fun he => hAB he) (by
        rw [hL2, hL1]
        exact le_trans (slot_bound A num BOOK_SIZE hA) hlen)]
      rw [hO2 A (fun he => hAB he) hA]
      exact hS1
    obtain ⟨hBl1, hBl2, _, _, _⟩ :=
      append_reuse_book_node _ (↑num) A p2 _ _ _ _ _ _ _ _ _ hAl2 hSA
        (by omega) (by omega) hfh1 hfh2 hp2
    exact ⟨_, _, hAl1, hAl2, hBl1, hBl2⟩

/-- Appending a fresh slot when the free list is empty: the record lands
at index `num`, the header becomes `(num+1, -1)`, old slots are
untouched, and the file grows by exactly one slot. -/
theorem append_new_node (f : File) (num : Nat) (p : List Nat) (s : Nat)
    (hh : read_header f = ((num : Int), -1))
    (hnum : num + 1 < 2147483648)
    (hp : p.length = s)
    (hlen : f.length = 8 + num * s) :
    append_or_reuse f p s =
      some (write_header (write_record_at f num p s) ((num : Int) + 1) (-1), num) ∧
    read_header (write_header (write_record_at f num p s) ((num : Int) + 1) (-1))
      = ((num : Int) + 1, -1) ∧
    read_record_bytes (write_header (write_record_at f num p s) ((num : Int) + 1) (-1))
      num s = some p ∧
    (∀ j, j < num →
      read_record_bytes (write_header (write_record_at f num p s) ((num : Int) + 1) (-1))
        j s = read_record_bytes f j s) ∧
    (write_header (write_record_at f num p s) ((num : Int) + 1) (-1)).length
      = 8 + (num + 1) * s := by
  refine ⟨append_or_reuse_append f num p s hh, ?_, ?_, ?_, ?_⟩
  · exact read_header_write_header _ _ _ (by omega) (by omega) (by omega) (by omega)
  · rw [read_record_write_header]
    exact read_record_write_same f num p s hp
  · intro j hj
    rw [read_record_write_header]
    exact read_record_write_other f num j p s (by omega) hp
      (by rw [hlen]; exact slot_bound j num s hj)
  · have hwr : (write_record_at f num p s).length = 8 + (num + 1) * s := by
      rw [write_record_at, length_writeBytes, hlen, hp]
      unfold record_offset
      have : (num + 1) * s = num * s + s := by ring
      omega
    rw [length_write_header _ _ _ (by omega), hwr]

/-- Claim C3: a successful lend of one item decrements the item's
available-copies field by exactly 1 and appends exactly one new
outstanding lending record — all previous loan slots unchanged, record
count up by one — whose member and item identifiers match the request and
whose due date is the loan date plus 7 days. -/
theorem C3_lend_postcondition (books loans : File) (mid bid : List Nat)
    (max_loan cb today numL b_idx : Nat) (data : List Nat)
    (hcb : cb < max_loan)
    (hfind : find_record_by_id books BOOK_SIZE bid = Except.ok (some (b_idx, data)))
    (hst : (unpack_book data).status = 1)
    (hcpnz : (unpack_book data).copies ≠ 0)
    (hcple : (unpack_book data).copies < 4294967296)
    (hhL : read_header loans = ((numL : Int), -1))
    (hlenL : loans.length = 8 + numL * LOAN_SIZE)
    (hnumL : numL + 1 < 2147483648)
    (hgm : goodStr mid 4) (hgb : goodStr bid 4)
    (htoday : today + 7 < 10000000000)
    (h8B : 8 ≤ books.length) :
    ∃ books1 loans1,
      borrow_item books loans mid max_loan cb today bid
        = Except.ok (books1, loans1, cb + 1) ∧
      (∃ d, read_record_bytes books1 b_idx BOOK_SIZE = some d ∧
        (unpack_book d).copies = (unpack_book data).copies - 1) ∧
      read_header books1 = read_header books ∧
      read_header loans1 = ((numL : Int) + 1, -1) ∧
      (∃ d, read_record_bytes loans1 numL LOAN_SIZE = some d ∧
        (unpack_loan d).member_id = mid ∧ (unpack_loan d).book_id = bid ∧
        (unpack_loan d).op_type = 1 ∧ (unpack_loan d).status = 1 ∧
        (unpack_loan d).loan_date = date_str today ∧
        (unpack_loan d).due_date = date_str (today + 7)) ∧
      (∀ j, j < numL →
        read_record_bytes loans1 j LOAN_SIZE = read_record_bytes loans j LOAN_SIZE) := by
  obtain ⟨hap1, hap2, hap3, hap4, _⟩ :=
    append_new_node loans numL
      (pack_loan (next_loan_id loans) 1 mid bid (date_str today)
        (date_str (today + 7)) [45] 1 (-1)) LOAN_SIZE hhL hnumL
      (length_pack_loan _ _ _ _ _ _ _ _ _) hlenL
  unfold borrow_item
  rw [if_neg (show ¬ (max_loan ≤ cb) by omega)]
  rw [hfind]
  simp only [hst, ne_eq, not_true_eq_false, if_false, eq_false hcpnz]
  rw [hap1]
  refine ⟨_, _, rfl,
    ⟨_, read_record_write_same _ _ _ _ (length_pack_book _ _ _ _ _ _ _ _ _), ?_⟩,
    read_header_write_record _ _ _ _ h8B, hap2, ⟨_, hap3, ?_⟩, hap4⟩
  · rw [unpack_pack_book_raw]
    simp only
    omega
  · rw [unpack_pack_loan_raw]
    have h10 : today < 10000000000 := by omega
    refine ⟨bytes_to_str_fit_str _ _ hgm, bytes_to_str_fit_str _ _ hgb, rfl, rfl,
      bytes_to_str_fit_str _ _ (goodStr_decimal today 10 h10),
      bytes_to_str_fit_str _ _ (goodStr_decimal (today + 7) 10 htoday)⟩

theorem C3_lend_postcondition_witness :
    (unpack_book cw3_book).status = 1 ∧ (unpack_book cw3_book).copies = 2 ∧
    ∃ books1 loans1,
      borrow_item cw3_books cw3_loans [77, 48, 48, 49] 5 0 5 [66, 48, 48, 49]
        = Except.ok (books1, loans1, 0 + 1) ∧
      (∃ d, read_record_bytes books1 0 BOOK_SIZE = some d ∧
        (unpack_book d).copies = (unpack_book cw3_book).copies - 1) ∧
      read_header books1 = read_header cw3_books ∧
      read_header loans1 = ((0 : Int) + 1, -1) ∧
      (∃ d, read_record_bytes loans1 0 LOAN_SIZE = some d ∧
        (unpack_loan d).member_id = [77, 48, 48, 49] ∧
        (unpack_loan d).book_id = [66, 48, 48, 49] ∧
        (unpack_loan d).op_type = 1 ∧ (unpack_loan d).status = 1 ∧
        (unpack_loan d).loan_date = date_str 5 ∧
        (unpack_loan d).due_date = date_str (5 + 7)) ∧
      (∀ j, j < 0 →
        read_record_bytes loans1 j LOAN_SIZE = read_record_bytes cw3_loans j LOAN_SIZE) :=
  ⟨by decide, by decide,
    C3_lend_postcondition cw3_books cw3_loans [77, 48, 48, 49] [66, 48, 48, 49]
      5 0 5 0 0 cw3_book (by decide) (by decide) (by decide) (by decide) (by decide)
      (by decide) (by decide) (by decide) (by decide) (by decide) (by decide) (by decide)⟩

/-- Appending one outstanding loan of `mid` bumps the member's
outstanding count by exactly 1. -/
theorem count_after_append (loans loans1 : File) (numL : Nat) (p mid : List Nat)
    (hhL : read_header loans = ((numL : Int), -1))
    (hh1 : read_header loans1 = ((numL : Int) + 1, -1))
    (hs : read_record_bytes loans1 numL LOAN_SIZE = some p)
    (hold : ∀ j, j < numL →
      read_record_bytes loans1 j LOAN_SIZE = read_record_bytes loans j LOAN_SIZE)
    (hm : (unpack_loan p).member_id = mid) (hst : (unpack_loan p).status = 1) :
    current_borrowed_count loans1 mid = current_borrowed_count loans mid + 1 := by
  unfold current_borrowed_count list_all_records
  rw [hh1, hhL]
  have hc1 : (((numL : Int) + 1, (-1 : Int)).1).toNat = numL + 1 := by
    simp only []
    omega
  have hc2 : (((numL : Int), (-1 : Int)).1).toNat = numL := by
    simp
  rw [hc1, hc2]
  rw [List.range_succ, List.filterMap_append, List.countP_append]
  have heq : (List.range numL).filterMap
      (fun i => (read_record_bytes loans1 i LOAN_SIZE).map (fun d => (i, d))) =
      (List.range numL).filterMap
      (fun i => (read_record_bytes loans i LOAN_SIZE).map (fun d => (i, d))) := by
    apply List.filterMap_congr
    intro i hi
    rw [hold i (List.mem_range.mp hi)]
  rw [heq]
  have hsingle : ([numL] : List Nat).filterMap
      (fun i => (read_record_bytes loans1 i LOAN_SIZE).map (fun d => (i, d)))
      = [(numL, p)] := by
    simp [hs]
  rw [hsingle]
  simp [hm, hst]

/-- One borrow-loop iteration preserves the store invariants, never
fails on readable stores, and increments `current_borrowed` — together
with the member's stored outstanding count — only below the limit. -/
theorem borrow_item_step (books loans : File) (mid bid : List Nat)
    (max_loan cb today numB numL : Nat) (fhB : Int)
    (hhB : read_header books = ((numB : Int), fhB))
    (hreadB : slots_readable books numB BOOK_SIZE)
    (hlenB : 8 + numB * BOOK_SIZE ≤ books.length)
    (hhL : read_header loans = ((numL : Int), -1))
    (hlenL : loans.length = 8 + numL * LOAN_SIZE)
    (hnumL : numL + 1 < 2147483648)
    (hgm : goodStr mid 4) :
    ∃ books1 loans1 cb1,
      borrow_item books loans mid max_loan cb today bid
        = Except.ok (books1, loans1, cb1) ∧
      read_header books1 = ((numB : Int), fhB) ∧
      slots_readable books1 numB BOOK_SIZE ∧
      8 + numB * BOOK_SIZE ≤ books1.length ∧
      ∃ numL1 : Nat,
        read_header loans1 = ((numL1 : Int), -1) ∧
        loans1.length = 8 + numL1 * LOAN_SIZE ∧
        numL1 ≤ numL + 1 ∧
        cb ≤ cb1 ∧
        current_borrowed_count loans1 mid
          = current_borrowed_count loans mid + (cb1 - cb) ∧
        (cb1 = cb ∨ (cb < max_loan ∧ cb1 = cb + 1)) := by
  have h8B : 8 ≤ books.length := by
    have := Nat.zero_le (numB * BOOK_SIZE); omega
  have base : borrow_item books loans mid max_loan cb today bid
      = Except.ok (books, loans, cb) →
      (∃ books1 loans1 cb1,
        borrow_item books loans mid max_loan cb today bid
          = Except.ok (books1, loans1, cb1) ∧
        read_header books1 = ((numB : Int), fhB) ∧
        slots_readable books1 numB BOOK_SIZE ∧
        8 + numB * BOOK_SIZE ≤ books1.length ∧
        ∃ numL1 : Nat,
          read_header loans1 = ((numL1 : Int), -1) ∧
          loans1.length = 8 + numL1 * LOAN_SIZE ∧
          numL1 ≤ numL + 1 ∧
          cb ≤ cb1 ∧
          current_borrowed_count loans1 mid
            = current_borrowed_count loans mid + (cb1 - cb) ∧
          (cb1 = cb ∨ (cb < max_loan ∧ cb1 = cb + 1))) := by
    intro he
    exact ⟨books, loans, cb, he, hhB, hreadB, hlenB, numL, hhL, hlenL,
      by omega, le_refl cb, by simp, Or.inl rfl⟩
  by_cases hml : max_loan ≤ cb
  · exact base (by unfold borrow_item; rw [if_pos hml])
  · have hfuel : (read_header books).1.toNat = numB := by
      rw [hhB]; exact Int.toNat_natCast numB
    have hfr := find_from_readable books BOOK_SIZE bid numB 0
      (fun i _ h2 => hreadB i (by omega))
    have hfind : find_record_by_id books BOOK_SIZE bid =
        Except.ok (((List.range' 0 numB).filterMap
          (fun i => (read_record_bytes books i BOOK_SIZE).map (fun d => (i, d)))).find?
            (fun p => id_of p.2 == bid)) := by
      unfold find_record_by_id
      rw [hfuel]
      exact hfr
    cases hq : ((List.range' 0 numB).filterMap
        (fun i => (read_record_bytes books i BOOK_SIZE).map (fun d => (i, d)))).find?
          (fun p => id_of p.2 == bid) with
    | none =>
      refine base ?_
      unfold borrow_item
      rw [if_neg hml, hfind, hq]
    | some pr =>
      obtain ⟨b_idx, data⟩ := pr
      have hmem := List.mem_of_find?_eq_some hq
      rw [List.mem_filterMap] at hmem
      obtain ⟨i, hi_mem, hi_eq⟩ := hmem
      have hbidx : b_idx < numB ∧ read_record_bytes books b_idx BOOK_SIZE = some data := by
        cases hrb : read_record_bytes books i BOOK_SIZE with
        | none => rw [hrb] at hi_eq; simp at hi_eq
        | some d0 =>
          rw [hrb] at hi_eq
          simp only [Option.map_some', Option.some_inj, Prod.mk.injEq] at hi_eq
          obtain ⟨he1, he2⟩ := hi_eq
          subst he1
          subst he2
          refine ⟨?_, hrb⟩
          have := List.mem_range'_1.mp hi_mem
          omega
      by_cases hst : (unpack_book data).status = 1
      · by_cases hcp : (unpack_book data).copies = 0
        · refine base ?_
          unfold borrow_item
          rw [if_neg hml, hfind, hq]
          simp only [hst, ne_eq, not_true_eq_false, if_false, hcp, if_pos]
        · obtain ⟨hap1, hap2, hap3, hap4, hap5⟩ :=
            append_new_node loans numL
              (pack_loan (next_loan_id loans) 1 mid bid (date_str today)
                (date_str (today + 7)) [45] 1 (-1)) LOAN_SIZE hhL hnumL
              (length_pack_loan _ _ _ _ _ _ _ _ _) hlenL
          have hbound : record_offset b_idx BOOK_SIZE + BOOK_SIZE ≤ books.length :=
            le_trans (slot_bound b_idx numB BOOK_SIZE hbidx.1) hlenB
          have hcast : ((numL + 1 : Nat) : Int) = (numL : Int) + 1 := by push_cast; ring
          refine ⟨write_record_at books b_idx
              (pack_book (unpack_book data).book_id (unpack_book data).title
                (unpack_book data).category (unpack_book data).author
                (unpack_book data).publisher (unpack_book data).year
                ((unpack_book data).copies - 1) 1 (unpack_book data).next_free)
              BOOK_SIZE,
            _, cb + 1, ?_, ?_, ?_, ?_, numL + 1, ?_, hap5, le_refl _,
            by omega, ?_, Or.inr ⟨by omega, rfl⟩⟩
          · unfold borrow_item
            rw [if_neg hml, hfind, hq]
            simp only [hst, ne_eq, not_true_eq_false, if_false, eq_false hcp]
            rw [hap1]
          · rw [read_header_write_record _ _ _ _ h8B]
            exact hhB
          · intro i2 hi2
            by_cases hib : i2 = b_idx
            · subst hib
              rw [read_record_write_same _ _ _ _ (length_pack_book _ _ _ _ _ _ _ _ _)]
              rfl
            · rw [read_record_write_other books b_idx i2 _ BOOK_SIZE
                (fun he => hib he.symm) (length_pack_book _ _ _ _ _ _ _ _ _)
                (le_trans (slot_bound i2 numB BOOK_SIZE hi2) hlenB)]
              exact hreadB i2 hi2
          · rw [length_write_record books b_idx _ BOOK_SIZE
              (length_pack_book _ _ _ _ _ _ _ _ _) hbound]
            exact hlenB
          · rw [hcast]
            exact hap2
          · have hone : cb + 1 - cb = 1 := by omega
            rw [hone]
            refine count_after_append loans _ numL _ mid hhL hap2 hap3 hap4 ?_ ?_
            · rw [unpack_pack_loan_raw]
              exact bytes_to_str_fit_str _ _ hgm
            · rw [unpack_pack_loan_raw]
      · refine base ?_
        unfold borrow_item
        rw [if_neg hml, hfind, hq]
        simp only [ne_eq, if_pos, eq_false hst, not_false_eq_true, if_true]

/-- Claim C5: within one borrow invocation (a multi-item batch processed
with a locally incremented in-memory counter), if the member's stored
outstanding-loan count equals the counter `cb`, it stays equal to the
counter after the batch, and a member whose counter starts at or below
`max_loan` can never end with more than `max_loan` outstanding records. -/
theorem C5_max_loan_enforced (ids : List (List Nat)) :
    ∀ (books loans : File) (mid : List Nat) (max_loan cb today numB numL : Nat)
      (fhB : Int),
    read_header books = ((numB : Int), fhB) →
    slots_readable books numB BOOK_SIZE →
    8 + numB * BOOK_SIZE ≤ books.length →
    read_header loans = ((numL : Int), -1) →
    loans.length = 8 + numL * LOAN_SIZE →
    numL + ids.length < 2147483648 →
    goodStr mid 4 →
    current_borrowed_count loans mid = cb →
    ∀ books2 loans2 cb2,
      borrow_items books loans mid max_loan cb today ids
        = Except.ok (books2, loans2, cb2) →
      current_borrowed_count loans2 mid = cb2 ∧
      (cb ≤ max_loan → cb2 ≤ max_loan) := by
  induction ids with
  | nil =>
    intro books loans mid max_loan cb today numB numL fhB _ _ _ _ _ _ _ hcb
    intro books2 loans2 cb2 hrun
    unfold borrow_items at hrun
    cases hrun
    exact ⟨hcb, fun h => h⟩
  | cons bid rest ih =>
    intro books loans mid max_loan cb today numB numL fhB hhB hreadB hlenB hhL
      hlenL hbudget hgm hcb
    intro books2 loans2 cb2 hrun
    obtain ⟨books1, loans1, cb1, hstep, hhB1, hreadB1, hlenB1, numL1, hhL1,
      hlenL1, hnumL1, hcble, hcount1, hcase⟩ :=
      borrow_item_step books loans mid bid max_loan cb today numB numL fhB
        hhB hreadB hlenB hhL hlenL (by simp at hbudget ⊢; omega) hgm
    have hrun1 : borrow_items books1 loans1 mid max_loan cb1 today rest
        = Except.ok (books2, loans2, cb2) := by
      unfold borrow_items at hrun
      rw [hstep] at hrun
      exact hrun
    have hcount1' : current_borrowed_count loans1 mid = cb1 := by
      rw [hcount1, hcb]
      omega
    have hbudget1 : numL1 + rest.length < 2147483648 := by
      simp at hbudget
      omega
    obtain ⟨hfinal, himp⟩ := ih books1 loans1 mid max_loan cb1 today numB numL1 fhB
      hhB1 hreadB1 hlenB1 hhL1 hlenL1 hbudget1 hgm hcount1'
      books2 loans2 cb2 hrun1
    refine ⟨hfinal, fun hle => himp ?_⟩
    rcases hcase with h | h
    · omega
    · omega

/-! ### The allocation-count trace invariant (claim C6) -/

/-- The `next_free` field that `unpack_book` decodes is the two's
complement value of bytes 153..157 of the slot. -/
theorem unpack_book_next_free_eq (d : List Nat) :
    (unpack_book d).next_free = unpack_i32 ((d.drop 153).take 4) := by
  unfold unpack_book
  simp only [List.drop_drop]

theorem slot_ok_mono (f : File) (i c1 c2 : Nat)
    (h : slot_next_free_ok f i c1) (hle : c1 ≤ c2) : slot_next_free_ok f i c2 := by
  intro d hd
  rcases h d hd with h1 | h1
  · exact Or.inl h1
  · exact Or.inr ⟨h1.1, lt_of_lt_of_le h1.2 (by exact_mod_cast hle)⟩

theorem slot_ok_of_read_eq (f g : File) (i c : Nat)
    (heq : read_record_bytes g i BOOK_SIZE = read_record_bytes f i BOOK_SIZE)
    (h : slot_next_free_ok f i c) : slot_next_free_ok g i c := by
  intro d hd
  exact h d (heq ▸ hd)

theorem slot_ok_of_packed (g : File) (i c : Nat) (a1 a2 a3 a4 a5 a6 : List Nat)
    (cp st : Nat) (nf : Int)
    (hread : read_record_bytes g i BOOK_SIZE = some (pack_book a1 a2 a3 a4 a5 a6 cp st nf))
    (hnf : nf = -1 ∨ (0 ≤ nf ∧ nf < (c : Int)))
    (hr1 : -2147483648 ≤ nf) (hr2 : nf < 2147483648) :
    slot_next_free_ok g i c := by
  intro d hd
  rw [hread] at hd
  cases hd
  rw [unpack_pack_book_raw]
  simp only
  rw [unpack_pack_i32 nf hr1 hr2]
  exact hnf

theorem wf_slots_readable (f : File) (count : Nat) (fh : Int)
    (hwf : books_wf f count fh) : slots_readable f count BOOK_SIZE := by
  intro i hi
  rw [read_record_of_le f i BOOK_SIZE (by rw [hwf.2.1]; exact slot_bound i count BOOK_SIZE hi)]
  rfl

/-- On a fully readable store, `find_record_by_id` either reports
not-found or yields a readable slot below the record count. -/
theorem find_cases_book (f : File) (count : Nat) (fh : Int) (bid : List Nat)
    (hh : read_header f = ((count : Int), fh))
    (hread : slots_readable f count BOOK_SIZE) :
    find_record_by_id f BOOK_SIZE bid = Except.ok none ∨
    (∃ idx data, find_record_by_id f BOOK_SIZE bid = Except.ok (some (idx, data)) ∧
      idx < count ∧ read_record_bytes f idx BOOK_SIZE = some data) := by
  have hfuel : (read_header f).1.toNat = count := by
    rw [hh]; exact Int.toNat_natCast count
  have hfr := find_from_readable f BOOK_SIZE bid count 0
    (fun i _ h2 => hread i (by omega))
  have hfind : find_record_by_id f BOOK_SIZE bid =
      Except.ok (((List.range' 0 count).filterMap
        (fun i => (read_record_bytes f i BOOK_SIZE).map (fun d => (i, d)))).find?
          (fun p => id_of p.2 == bid)) := by
    unfold find_record_by_id
    rw [hfuel]
    exact hfr
  cases hq : ((List.range' 0 count).filterMap
      (fun i => (read_record_bytes f i BOOK_SIZE).map (fun d => (i, d)))).find?
        (fun p => id_of p.2 == bid) with
  | none => left; rw [hfind, hq]
  | some pr =>
    right
    obtain ⟨idx, data⟩ := pr
    have hmem := List.mem_of_find?_eq_some hq
    rw [List.mem_filterMap] at hmem
    obtain ⟨i, hi_mem, hi_eq⟩ := hmem
    refine ⟨idx, data, by rw [hfind, hq], ?_⟩
    cases hrb : read_record_bytes f i BOOK_SIZE with
    | none => rw [hrb] at hi_eq; simp at hi_eq
    | some d0 =>
      rw [hrb] at hi_eq
      simp only [Option.map_some', Option.some_inj, Prod.mk.injEq] at hi_eq
      obtain ⟨he1, he2⟩ := hi_eq
      subst he1
      subst he2
      refine ⟨?_, hrb⟩
      have := List.mem_range'_1.mp hi_mem
      omega

/-- `delete_book` never fails on a well-formed store and preserves
well-formedness with the same record count. -/
theorem exec_delete_wf (f : File) (count : Nat) (fh : Int) (bid : List Nat)
    (hwf : books_wf f count fh) (hcount : count < 2147483648) :
    ∃ f1 r fh1, delete_book f bid = Except.ok (f1, r) ∧ books_wf f1 count fh1 := by
  obtain ⟨hh, hlen, hfh, hnf⟩ := hwf
  have hfh1 : -2147483648 ≤ fh := by rcases hfh with h | h <;> omega
  have hfh2 : fh < 2147483648 := by rcases hfh with h | h <;> omega
  rcases find_cases_book f count fh bid hh (wf_slots_readable f count fh ⟨hh, hlen, hfh, hnf⟩)
    with hfind | ⟨idx, data, hfind, hidx, hslot⟩
  · exact ⟨f, DelResult.notFound, fh, by unfold delete_book; rw [hfind],
      hh, hlen, hfh, hnf⟩
  · by_cases hst : (unpack_book data).status = 0
    · exact ⟨f, DelResult.alreadyDeleted, fh,
        by unfold delete_book; rw [hfind]; simp only [hst, if_pos], hh, hlen, hfh, hnf⟩
    · obtain ⟨hH, hL, hS, hO⟩ :=
        free_book_slot_facts f count fh idx (unpack_book data) hh hcount hfh1 hfh2 hidx
          (le_of_eq hlen.symm)
      refine ⟨free_book_slot f idx (unpack_book data), DelResult.deleted, (idx : Int),
        ?_, hH, by rw [hL]; exact hlen, Or.inr ⟨by omega, by exact_mod_cast hidx⟩, ?_⟩
      · unfold delete_book
        rw [hfind]
        simp only [eq_false hst, if_false]
      · intro i hi
        by_cases hii : i = idx
        · subst hii
          exact slot_ok_of_packed _ i count _ _ _ _ _ _ _ _ _ hS hfh hfh1 hfh2
        · exact slot_ok_of_read_eq f _ i count (hO i hii hi) (hnf i hi)

/-- `update_book` never fails on a well-formed store and preserves
well-formedness: record count, free head and every slot link survive. -/
theorem exec_update_wf (f : File) (count : Nat) (fh : Int)
    (bid t c a p y : List Nat) (cp : Nat)
    (hwf : books_wf f count fh) (hcount : count < 2147483648) :
    ∃ f1 r, update_book_core f bid t c a p y cp = Except.ok (f1, r) ∧
      books_wf f1 count fh := by
  obtain ⟨hh, hlen, hfh, hnf⟩ := hwf
  rcases find_cases_book f count fh bid hh (wf_slots_readable f count fh ⟨hh, hlen, hfh, hnf⟩)
    with hfind | ⟨idx, data, hfind, hidx, hslot⟩
  · exact ⟨f, false, by unfold update_book_core; rw [hfind], hh, hlen, hfh, hnf⟩
  · by_cases hst : (unpack_book data).status = 1
    · have hnfv := hnf idx hidx data hslot
      have hr1 : -2147483648 ≤ (unpack_book data).next_free := by
        rcases hnfv with h | h <;> omega
      have hr2 : (unpack_book data).next_free < 2147483648 := by
        rcases hnfv with h | h <;> omega
      have h8 : 8 ≤ f.length := by rw [hlen]; omega
      have hbound : record_offset idx BOOK_SIZE + BOOK_SIZE ≤ f.length := by
        rw [hlen]; exact slot_bound idx count BOOK_SIZE hidx
      refine ⟨write_record_at f idx
          (pack_book (unpack_book data).book_id t c a p y cp 1
            (unpack_book data).next_free) BOOK_SIZE, true, ?_, ?_, ?_, hfh, ?_⟩
      · unfold update_book_core
        rw [hfind]
        simp only [hst, ne_eq, not_true_eq_false, if_false]
      · rw [read_header_write_record _ _ _ _ h8]
        exact hh
      · rw [length_write_record f idx _ BOOK_SIZE (length_pack_book _ _ _ _ _ _ _ _ _) hbound]
        exact hlen
      · intro i hi
        by_cases hii : i = idx
        · subst hii
          exact slot_ok_of_packed _ i count _ _ _ _ _ _ _ _ _
            (read_record_write_same f i _ BOOK_SIZE (length_pack_book _ _ _ _ _ _ _ _ _))
            hnfv hr1 hr2
        · refine slot_ok_of_read_eq f _ i count ?_ (hnf i hi)
          exact read_record_write_other f idx i _ BOOK_SIZE (fun he => hii he.symm)
            (length_pack_book _ _ _ _ _ _ _ _ _)
            (by rw [hlen]; exact slot_bound i count BOOK_SIZE hi)
    · refine ⟨f, false, ?_, hh, hlen, hfh, hnf⟩
      unfold update_book_core
      rw [hfind]
      simp only [ne_eq, eq_false hst, not_false_eq_true, if_true]

/-- `add_book` never fails on a well-formed store: with an empty free
list it allocates the fresh slot `count` and the count grows by one; with
a non-empty free list it reuses the head slot (an already-allocated index)
and the count is unchanged. -/
theorem exec_create_wf (f : File) (count : Nat) (fh : Int) (b : Book)
    (hwf : books_wf f count fh) (hcount : count + 1 < 2147483648) :
    ∃ f1 idx fh1, add_book_core f b = some (f1, idx) ∧
      ((fh = -1 ∧ idx = count ∧ books_wf f1 (count + 1) fh1) ∨
       (fh ≠ -1 ∧ idx < count ∧ books_wf f1 count fh1)) := by
  obtain ⟨hh, hlen, hfh, hnf⟩ := hwf
  have h8 : 8 ≤ f.length := by rw [hlen]; omega
  rcases hfh with hfh | hfhv
  · subst hfh
    obtain ⟨hap1, hap2, hap3, hap4, hap5⟩ :=
      append_new_node f count
        (pack_book b.book_id b.title b.category b.author b.publisher b.year
          b.copies 1 (-1)) BOOK_SIZE hh hcount (length_pack_book _ _ _ _ _ _ _ _ _) hlen
    have hcast : ((count + 1 : Nat) : Int) = (count : Int) + 1 := by push_cast; ring
    have h8b : 8 ≤ (write_header (write_record_at f count
        (pack_book b.book_id b.title b.category b.author b.publisher b.year
          b.copies 1 (-1)) BOOK_SIZE) ((count : Int) + 1) (-1)).length := by
      rw [hap5]; omega
    refine ⟨write_header (write_header (write_record_at f count
        (pack_book b.book_id b.title b.category b.author b.publisher b.year
          b.copies 1 (-1)) BOOK_SIZE) ((count : Int) + 1) (-1)) ((count : Int) + 1) (-1),
      count, -1, ?_, Or.inl ⟨rfl, rfl, ?_, ?_, Or.inl rfl, ?_⟩⟩
    · unfold add_book_core
      simp only [hh, hap1]
      rw [if_true]
    · rw [read_header_write_header _ _ _ (by omega) (by omega) (by omega) (by omega), hcast]
    · rw [length_write_header _ _ _ h8b, hap5]
    · intro i hi
      by_cases hii : i = count
      · subst hii
        refine slot_ok_of_packed _ i (i + 1) b.book_id b.title b.category b.author
          b.publisher b.year b.copies 1 (-1) ?_ (Or.inl rfl) (by omega) (by omega)
        rw [read_record_write_header]
        exact hap3
      · have hi' : i < count := by omega
        refine slot_ok_mono _ i count (count + 1) ?_ (by omega)
        refine slot_ok_of_read_eq f _ i count ?_ (hnf i hi')
        rw [read_record_write_header]
        exact hap4 i hi'
  · have hk : fh.toNat < count := by omega
    have hkc : ((fh.toNat : Nat) : Int) = fh := Int.toNat_of_nonneg hfhv.1
    have hslot := (wf_slots_readable f count fh ⟨hh, hlen, Or.inr hfhv, hnf⟩) fh.toNat hk
    obtain ⟨frec, hfrec⟩ := Option.isSome_iff_exists.mp hslot
    have hnfv := hnf fh.toNat hk frec hfrec
    have hr1 : -2147483648 ≤ (unpack_book frec).next_free := by
      rcases hnfv with h | h <;> omega
    have hr2 : (unpack_book frec).next_free < 2147483648 := by
      rcases hnfv with h | h <;> omega
    have hbound : record_offset fh.toNat BOOK_SIZE + BOOK_SIZE ≤ f.length := by
      rw [hlen]; exact slot_bound fh.toNat count BOOK_SIZE hk
    have hre : append_or_reuse f
        (pack_book b.book_id b.title b.category b.author b.publisher b.year
          b.copies 1 (-1)) BOOK_SIZE =
        some (write_header (write_record_at f fh.toNat
          (pack_book b.book_id b.title b.category b.author b.publisher b.year
            b.copies 1 (-1)) BOOK_SIZE) (count : Int) ((unpack_book frec).next_free),
          fh.toNat) := by
      rw [append_or_reuse_reuse f (count : Int) fh.toNat _ frec BOOK_SIZE
        (by rw [hh, hkc]) hfrec]
      rw [show BOOK_SIZE - 4 = 153 from rfl, ← unpack_book_next_free_eq]
    refine ⟨write_header (write_record_at f fh.toNat
        (pack_book b.book_id b.title b.category b.author b.publisher b.year
          b.copies 1 (-1)) BOOK_SIZE) (count : Int) ((unpack_book frec).next_free),
      fh.toNat, (unpack_book frec).next_free, ?_,
      Or.inr ⟨by omega, hk, ?_, ?_, hnfv, ?_⟩⟩
    · unfold add_book_core
      simp only [hh, hre]
      rw [if_neg (show ¬ fh = -1 by omega)]
    · exact read_header_write_header _ _ _ (by omega) (by omega) hr1 hr2
    · rw [length_write_header, length_write_record f fh.toNat _ BOOK_SIZE
        (length_pack_book _ _ _ _ _ _ _ _ _) hbound]
      · exact hlen
      · rw [length_write_record f fh.toNat _ BOOK_SIZE
          (length_pack_book _ _ _ _ _ _ _ _ _) hbound]
        omega
    · intro i hi
      by_cases hii : i = fh.toNat
      · subst hii
        refine slot_ok_of_packed _ fh.toNat count b.book_id b.title b.category b.author
          b.publisher b.year b.copies 1 (-1) ?_ (Or.inl rfl) (by omega) (by omega)
        rw [read_record_write_header]
        exact read_record_write_same f fh.toNat _ BOOK_SIZE
          (length_pack_book _ _ _ _ _ _ _ _ _)
      · refine slot_ok_of_read_eq f _ i count ?_ (hnf i hi)
        rw [read_record_write_header]
        exact read_record_write_other f fh.toNat i _ BOOK_SIZE (fun he => hii he.symm)
          (length_pack_book _ _ _ _ _ _ _ _ _)
          (by rw [hlen]; exact slot_bound i count BOOK_SIZE hi)

theorem init_file_wf : books_wf init_file 0 (-1) := by
  refine ⟨by decide, by decide, Or.inl rfl, ?_⟩
  intro i hi
  exact absurd hi (by omega)

/-- Running the trace from any well-formed store keeps the store
well-formed and keeps `S` equal to the set of allocated slot indices
`range count`; the count never decreases and grows by at most one per
operation. -/
theorem exec_trace_wf (ops : List BookOp) :
    ∀ (f : File) (S : Finset Nat) (count : Nat) (fh : Int),
      books_wf f count fh →
      S = Finset.range count →
      count + ops.length < 2147483648 →
      ∀ f2 S2, exec_trace f S ops = Except.ok (f2, S2) →
        ∃ count2 fh2, books_wf f2 count2 fh2 ∧ S2 = Finset.range count2 ∧
          count ≤ count2 ∧ count2 ≤ count + ops.length := by
  induction ops with
  | nil =>
    intro f S count fh hwf hS _ f2 S2 hrun
    unfold exec_trace at hrun
    cases hrun
    exact ⟨count, fh, hwf, hS, le_refl _, by omega⟩
  | cons op rest ih =>
    intro f S count fh hwf hS hbudget f2 S2 hrun
    simp only [List.length_cons] at hbudget
    cases op with
    | create b =>
      obtain ⟨f1, idx, fh1, hadd, hcase⟩ :=
        exec_create_wf f count fh b hwf (by omega)
      have hexec : exec_op f (BookOp.create b) = Except.ok (f1, some idx) := by
        simp only [exec_op, hadd]
      have hrun1 : exec_trace f1 (insert idx S) rest = Except.ok (f2, S2) := by
        unfold exec_trace at hrun
        rw [hexec] at hrun
        exact hrun
      rcases hcase with ⟨_, hidx, hwf1⟩ | ⟨_, hidx, hwf1⟩
      · subst hidx
        have hS1 : insert idx S = Finset.range (idx + 1) := by
          rw [hS, Finset.range_succ]
        obtain ⟨c2, fh2, hw2, hs2, hle1, hle2⟩ :=
          ih f1 _ (idx + 1) fh1 hwf1 hS1 (by omega) f2 S2 hrun1
        exact ⟨c2, fh2, hw2, hs2, by omega, by simp only [List.length_cons]; omega⟩
      · have hS1 : insert idx S = Finset.range count := by
          rw [hS]
          exact Finset.insert_eq_self.mpr (Finset.mem_range.mpr hidx)
        obtain ⟨c2, fh2, hw2, hs2, hle1, hle2⟩ :=
          ih f1 _ count fh1 hwf1 hS1 (by omega) f2 S2 hrun1
        exact ⟨c2, fh2, hw2, hs2, hle1, by simp only [List.length_cons]; omega⟩
    | update bid t c a p y cp =>
      obtain ⟨f1, r, hupd, hwf1⟩ :=
        exec_update_wf f count fh bid t c a p y cp hwf (by omega)
      have hexec : exec_op f (BookOp.update bid t c a p y cp) = Except.ok (f1, none) := by
        simp only [exec_op, hupd]
      have hrun1 : exec_trace f1 S rest = Except.ok (f2, S2) := by
        unfold exec_trace at hrun
        rw [hexec] at hrun
        exact hrun
      obtain ⟨c2, fh2, hw2, hs2, hle1, hle2⟩ :=
        ih f1 S count fh hwf1 hS (by omega) f2 S2 hrun1
      exact ⟨c2, fh2, hw2, hs2, hle1, by simp only [List.length_cons]; omega⟩
    | delete bid =>
      obtain ⟨f1, r, fh1, hdel, hwf1⟩ :=
        exec_delete_wf f count fh bid hwf (by omega)
      have hexec : exec_op f (BookOp.delete bid) = Except.ok (f1, none) := by
        simp only [exec_op, hdel]
      have hrun1 : exec_trace f1 S rest = Except.ok (f2, S2) := by
        unfold exec_trace at hrun
        rw [hexec] at hrun
        exact hrun
      obtain ⟨c2, fh2, hw2, hs2, hle1, hle2⟩ :=
        ih f1 S count fh1 hwf1 hS (by omega) f2 S2 hrun1
      exact ⟨c2, fh2, hw2, hs2, hle1, by simp only [List.length_cons]; omega⟩

theorem exec_trace_append (ops1 ops2 : List BookOp) :
    ∀ f S, exec_trace f S (ops1 ++ ops2) =
      match exec_trace f S ops1 with
      | Except.error e => Except.error e
      | Except.ok (f1, S1) => exec_trace f1 S1 ops2 := by
  induction ops1 with
  | nil => intro f S; rfl
  | cons op rest ih =>
    intro f S
    simp only [List.cons_append, exec_trace]
    cases hexec : exec_op f op with
    | error e => simp
    | ok pr =>
      obtain ⟨f1, oidx⟩ := pr
      cases oidx with
      | none => exact ih f1 S
      | some i => exact ih f1 (insert i S)

/-- Claim C6: starting from a freshly created store, after any sequence
of creates, updates and soft deletes, the header's record count equals
the number of distinct slots ever returned by the allocator (which form
exactly the range `0..count-1`); and the count never decreases across any
continuation of the trace — deletes and updates leave it unchanged, only
a create that appends a genuinely new slot increments it. -/
theorem C6_allocated_slots_count :
    (∀ (ops : List BookOp) (f2 : File) (S2 : Finset Nat),
      ops.length < 2147483648 →
      exec_trace init_file ∅ ops = Except.ok (f2, S2) →
      (read_header f2).1 = (S2.card : Int) ∧
      S2 = Finset.range (read_header f2).1.toNat) ∧
    (∀ (ops1 ops2 : List BookOp) (f1 f2 : File) (S1 S2 : Finset Nat),
      (ops1 ++ ops2).length < 2147483648 →
      exec_trace init_file ∅ ops1 = Except.ok (f1, S1) →
      exec_trace init_file ∅ (ops1 ++ ops2) = Except.ok (f2, S2) →
      (read_header f1).1 ≤ (read_header f2).1) := by
  have hS0 : (∅ : Finset Nat) = Finset.range 0 := by simp
  constructor
  · intro ops f2 S2 hb hrun
    obtain ⟨c2, fh2, hw2, hs2, _, _⟩ :=
      exec_trace_wf ops init_file ∅ 0 (-1) init_file_wf hS0 (by omega) f2 S2 hrun
    refine ⟨?_, ?_⟩
    · rw [hw2.1, hs2]
      simp
    · rw [hs2, hw2.1]
      simp
  · intro ops1 ops2 f1 f2 S1 S2 hb hrun1 hrun2
    simp only [List.length_append] at hb
    obtain ⟨c1, fh1, hw1, hs1, _, hc1b⟩ :=
      exec_trace_wf ops1 init_file ∅ 0 (-1) init_file_wf hS0 (by omega) f1 S1 hrun1
    rw [exec_trace_append ops1 ops2 init_file ∅, hrun1] at hrun2
    obtain ⟨c2, fh2, hw2, hs2, hle, _⟩ :=
      exec_trace_wf ops2 f1 S1 c1 fh1 hw1 hs1 (by omega) f2 S2 hrun2
    rw [hw1.1, hw2.1]
    simp only
    exact_mod_cast hle

theorem C6_allocated_slots_count_witness :
    ((read_header cw6_file).1 = ((({0} : Finset Nat).card : Nat) : Int) ∧
      ({0} : Finset Nat) = Finset.range (read_header cw6_file).1.toNat) ∧
    (read_header init_file).1 ≤ (read_header cw6_file).1 :=
  ⟨C6_allocated_slots_count.1 [BookOp.create cw6_b] cw6_file {0}
      (by norm_num) (by decide),
    C6_allocated_slots_count.2 [] [BookOp.create cw6_b] init_file cw6_file
      ∅ {0} (by norm_num) rfl (by decide)⟩

theorem C5_max_loan_enforced_witness :
    current_borrowed_count cw5_loans [77, 48, 48, 49] = 0 ∧
    goodStr [77, 48, 48, 49] 4 ∧
    (current_borrowed_count cw5_loans1 [77, 48, 48, 49] = 1 ∧
      ((0 : Nat) ≤ 1 → (1 : Nat) ≤ 1)) :=
  ⟨by decide, by decide,
    C5_max_loan_enforced [[66, 48, 48, 49], [66, 48, 48, 49]] cw5_books cw5_loans
      [77, 48, 48, 49] 1 0 5 1 0 (-1)
      (by decide) (by decide) (by decide) (by decide) (by decide) (by decide)
      (by decide) (by decide) cw5_books1 cw5_loans1 1 (by decide)⟩

theorem C1_lifo_reuse_witness :
    read_header cw1_books = ((2 : Int), -1) ∧
    cw1_books.length = 8 + 2 * BOOK_SIZE ∧
    ((∀ (k : Nat) (rk : Book) (q : List Nat), k < 2 → q.length = BOOK_SIZE →
      read_header (free_book_slot cw1_books k rk) = ((2 : Int), (k : Int)) ∧
      ∃ g, append_or_reuse (free_book_slot cw1_books k rk) q BOOK_SIZE = some (g, k) ∧
        read_header g = ((2 : Int), -1)) ∧
    (∃ f3 f4,
      append_or_reuse (free_book_slot (free_book_slot cw1_books 0 cw1_rec) 1 cw1_rec)
        cw1_b0 BOOK_SIZE = some (f3, 1) ∧
      read_header f3 = ((2 : Int), (0 : Int)) ∧
      append_or_reuse f3 cw1_b0 BOOK_SIZE = some (f4, 0) ∧
      read_header f4 = ((2 : Int), -1))) :=
  ⟨by decide, by decide,
    C1_lifo_reuse cw1_books 2 (-1) 0 1 cw1_rec cw1_rec cw1_b0 cw1_b0
      (by decide) (by decide) (Or.inl rfl) (by decide) (by decide) (by decide)
      (by decide) (by decide) (by decide)⟩

end LibSys
